import Mathlib

/-!
libCacheSim: training-matrix resize and popularity report.

A shallow embedding of

* `resize_matrix` (`src/libCacheSim/cache/eviction/L2Cache/learned.h`), and
* `analysis::PopularityUtils` / `analysis::Popularity`
  (`src/libCacheSim/analysis/popularity.h`),

followed by theorems about them.

Conventions of the embedding.

* The C heap is a list of blocks addressed by their index.  A cell holds
  `some v` once a value has been written to it and `none` while its content is
  indeterminate (fresh from the allocator).
* Unsigned arithmetic wraps: the `uint32_t` counter of `dump` modulo `2 ^ 32`,
  the `size_t` byte count of an allocation modulo `2 ^ 64`; the store of an
  `int64_t` into an `int32_t` wraps into the signed 32-bit range.  Signed
  overflow (undefined behaviour in C and C++) is outside the model: the `int`
  loop counter of `Popularity::run` is computed without wrapping, and so is
  the `int64_t` product `new_size * n_feature`, whose only use is a byte count
  reduced modulo `2 ^ 64`, the same whether the product wraps or not.
* A `double` is an element of an arbitrary field `F`, with the library
  function `log` passed as a parameter; the theorems about the sign of the
  Zipf fit read it as `ℝ` with `Real.log`.  A `double` member declared without
  an initialiser is `none` until it is assigned.
-/

namespace L2Cache

/-! ## The heap -/

/-- Ways in which a run of `resize_matrix` can stop before its last line. -/
inductive Fault where
  | assertion_failed
  | invalid_free
deriving DecidableEq, Repr

/-- One allocation: its cells (`none` is an indeterminate content) and whether
it is still allocated. -/
structure Block where
  cells : List (Option Nat)
  live : Bool
deriving DecidableEq, Repr

/-- The heap: every block ever allocated, addressed by its index. -/
abbrev Heap := List Block

/-- A pointer: `none` is `NULL`, `some a` the block at address `a`. -/
abbrev Ptr := Option Nat

/-- Modelled from the spec: the typedef `feature_t` comes from a header that is
not among the sources; the spec only says that features are numeric.  It is
taken to be `float`, so `sizeof(feature_t)` is 4. -/
def sizeof_feature_t : Nat := 4

/-- Modelled from the spec: the typedef `pred_t` comes from a header that is
not among the sources; the spec only says that labels are numeric.  It is
taken to be `float`, so `sizeof(pred_t)` is 4. -/
def sizeof_pred_t : Nat := 4

/-- The `size_t` product `sizeof(type) * n` for an integer `n`: `n` converts to
`size_t` and the product wraps, both modulo `2 ^ 64`. -/
def byte_count (size_of : Nat) (n : Int) : Nat :=
  ((size_of * n) % 2 ^ 64).toNat

/-- Modelled from the spec: the macro `my_malloc_n(type, n)` comes from an
allocator header that is not among the sources.  The spec knows it only as a
raw allocation primitive; it is taken to be `malloc(sizeof(type) * n)`, the
byte count being the wrapping `size_t` product.  The call returns a fresh
block of that many bytes, that is of `byte_count / sizeof(type)` cells, none
of them written; memory is unbounded, so the request is always served. -/
def my_malloc_n (size_of : Nat) (h : Heap) (n : Int) : Heap × Ptr :=
  (h ++ [{ cells := List.replicate (byte_count size_of n / size_of) none, live := true }],
    some h.length)

/-- Modelled from the spec: the macro `my_free(size, addr)` comes from the same
missing header; it is taken to be `free(addr)`, which ignores `size`.  Freeing
`NULL` does nothing, freeing a live block releases it, anything else is an
invalid free. -/
def my_free (h : Heap) (_size : Nat) (addr : Ptr) : Except Fault Heap :=
  match addr with
  | none => .ok h
  | some a =>
    match h[a]? with
    | some b =>
      if b.live then .ok (h.set a { b with live := false })
      else .error .invalid_free
    | none => .error .invalid_free

/-- Reading `p[i]`: the value stored there, if `p` is a live block, `i` is
within it and the cell has been written. -/
def deref (h : Heap) (p : Ptr) (i : Nat) : Option Nat :=
  match p with
  | none => none
  | some a =>
    match h[a]? with
    | some b => if b.live then b.cells[i]?.join else none
    | none => none

/-- The number of cells of the live block `p` points to. -/
def capacity (h : Heap) (p : Ptr) : Option Nat :=
  match p with
  | none => none
  | some a =>
    match h[a]? with
    | some b => if b.live then some b.cells.length else none
    | none => none

/-- Whether `p` points to a live block. -/
def is_live (h : Heap) (p : Ptr) : Bool :=
  match p with
  | none => false
  | some a =>
    match h[a]? with
    | some b => b.live
    | none => false

/-! ## `resize_matrix` -/

/-- Conversion of an integer to `int32_t`: reduction modulo `2 ^ 32` into
`[-2 ^ 31, 2 ^ 31)`. -/
def to_int32 (z : Int) : Int := (z + 2 ^ 31) % 2 ^ 32 - 2 ^ 31

/-- The part of `learner_t` that `resize_matrix` reads: the feature count, an
`int` that is not negative. -/
structure learner_t where
  n_feature : Nat
  n_feature_int : n_feature < 2 ^ 31
deriving DecidableEq, Repr

/-- The part of `L2Cache_params_t` that `resize_matrix` reads. -/
structure L2Cache_params_t where
  learner : learner_t
deriving DecidableEq, Repr

/-- Everything `resize_matrix` can reach through its arguments: `*params`, the
heap, `*x_p`, `*y_p` and `*size_p`. -/
structure World where
  params : L2Cache_params_t
  heap : Heap
  x : Ptr
  y : Ptr
  size : Int
deriving DecidableEq, Repr

/-- The function `resize_matrix(params, x_p, y_p, size_p, new_size)`. -/
def resize_matrix (w : World) (new_size : Int) : Except Fault World :=
  let learner := w.params.learner
  let freed : Except Fault Heap :=
    if w.size ≠ 0 then
      -- free previously allocated memory
      if w.x = none then .error .assertion_failed
      else
        match my_free w.heap (byte_count sizeof_feature_t (w.size * learner.n_feature)) w.x with
        | .ok h1 => my_free h1 (byte_count sizeof_pred_t w.size) w.y
        | .error e => .error e
    else .ok w.heap
  match freed with
  | .error e => .error e
  | .ok h2 =>
    let ax := my_malloc_n sizeof_feature_t h2 (new_size * learner.n_feature)
    let ay := my_malloc_n sizeof_pred_t ax.1 new_size
    .ok { params := w.params, heap := ay.1, x := ax.2, y := ay.2, size := to_int32 new_size }

/-- A training matrix of `n` rows: `*x_p` and `*y_p` are two different live
blocks of `n * n_feature` and `n` cells, and `*size_p` is `n`. -/
def TrainingMatrix (w : World) (n : Nat) : Prop :=
  w.size = n ∧ w.x ≠ w.y ∧
  capacity w.heap w.x = some (n * w.params.learner.n_feature) ∧
  capacity w.heap w.y = some n

/-- The buffers `resize_matrix` releases can be released: when the recorded
size is not zero, `*x_p` and `*y_p` are two different live blocks. -/
def Releasable (w : World) : Prop :=
  w.size ≠ 0 → w.x ≠ w.y ∧ is_live w.heap w.x = true ∧ is_live w.heap w.y = true

/-- The first `k` rows of `X` and the first `k` entries of `Y` read the same
in `w'` as in `w`. -/
def rows_kept (w w' : World) (k : Nat) : Prop :=
  (∀ i, i < k * w.params.learner.n_feature → deref w'.heap w'.x i = deref w.heap w.x i) ∧
  (∀ i, i < k → deref w'.heap w'.y i = deref w.heap w.y i)

/-- The heap after the two allocations of `resize_matrix` on the heap `h`. -/
def allocated (h : Heap) (n_feature : Nat) (new_size : Int) : Heap :=
  h ++ [{ cells := List.replicate
            (byte_count sizeof_feature_t (new_size * n_feature) / sizeof_feature_t) none,
          live := true },
        { cells := List.replicate (byte_count sizeof_pred_t new_size / sizeof_pred_t) none,
          live := true }]

/-- A one-row matrix of two features, `X = [[3, 4]]`, `Y = [1]`. -/
def one_row : World :=
  { params := { learner := { n_feature := 2, n_feature_int := by decide } },
    heap := [{ cells := [some 3, some 4], live := true }, { cells := [some 1], live := true }],
    x := some 0, y := some 1, size := 1 }

/-- A two-row matrix of one feature, `X = [[5], [6]]`, `Y = [1, 0]`. -/
def two_rows : World :=
  { params := { learner := { n_feature := 1, n_feature_int := by decide } },
    heap := [{ cells := [some 5, some 6], live := true },
             { cells := [some 1, some 0], live := true }],
    x := some 0, y := some 1, size := 2 }

end L2Cache

namespace analysis

/-! ## `PopularityUtils` -/

namespace PopularityUtils

variable {F : Type} [Field F]

/-- The call `std::accumulate(first, last, init)`: a left fold with `+`. -/
def accumulate (xs : List F) (init : F) : F :=
  xs.foldl (fun acc v => acc + v) init

/-- The call `std::inner_product(first1, last1, first2, init)`: a left fold
adding the products of the paired entries (the second range is at least as
long as the first wherever the code calls it). -/
def inner_product (xs ys : List F) (init : F) : F :=
  (List.zip xs ys).foldl (fun acc p => acc + p.1 * p.2) init

/-- The function `PopularityUtils::slope(x, y)`. -/
def slope (x y : List F) : F :=
  let n : F := (x.length : F)
  let s_x := accumulate x 0
  let s_y := accumulate y 0
  let s_xx := inner_product x x 0
  let s_xy := inner_product x y 0
  let a := (n * s_xy - s_x * s_y) / (n * s_xx - s_x * s_x)
  a

end PopularityUtils

/-! ## `Popularity` -/

/-- Modelled from the spec: the record `obj_info` of `struct.h`, which is not
among the sources; the spec's report maps an object identifier to its observed
frequency.  Only `freq` is read, and it is taken to have the element type of
`freq_vec_` (`uint32_t`), so that `push_back` stores it unchanged. -/
structure obj_info where
  freq : Nat
deriving DecidableEq, Repr

/-- The type `obj_info_map_type`, an unordered map from object identifier to
`obj_info`, given by its entries in the order the map iterates over them. -/
abbrev obj_info_map_type := List (Nat × obj_info)

/-- The call `sort(first, last, greater<>())` on a vector of integers: the
entries in non-increasing order. -/
def sort_greater (v : List Nat) : List Nat :=
  List.insertionSort (fun a b => a ≥ b) v

/-- The frequencies of a map, in iteration order. -/
def freqs (obj_map : obj_info_map_type) : List Nat :=
  obj_map.map (fun p => p.2.freq)

/-- The reason recorded for a map of `n < 200` objects. -/
def too_few_objects (n : Nat) : String :=
  "popularity: too few objects (" ++ toString n ++ "), skip the popularity computation"

/-- The reason recorded when the most popular object has `k < 200` requests. -/
def most_popular (k : Nat) : String :=
  "popularity: the most popular object has " ++ toString k ++ " requests "

/-- The data members of `Popularity`.  The three `double` members have no
initialiser: they are `none` until something is assigned to them. -/
structure Popularity (F : Type) where
  fit_fail_reason_ : String
  freq_vec_ : List Nat
  slope_ : Option F
  intercept_ : Option F
  r2_ : Option F
  has_run : Bool

/-- What a member function leaves behind: the object and the lines it handed
to the logging calls `WARN` and `ERROR`. -/
structure Logged (α : Type) where
  obj : α
  log : List String

/-- One insertion into an output stream. -/
inductive Item (F : Type) where
  | text (s : String)
  | setprecision (digits : Nat)
  | number (v : Option F)

namespace Popularity

variable {F : Type}

/-- The members as their default initialisers leave them, before a
constructor body runs. -/
def members : Popularity F :=
  { fit_fail_reason_ := "", freq_vec_ := [], slope_ := none, intercept_ := none,
    r2_ := none, has_run := false }

/-- The default constructor `Popularity()`. -/
def default_ctor : Popularity F :=
  { (members : Popularity F) with has_run := false }

section fit

variable [Field F]

/-- The vector `log_freq` of `run` after its `for_each`: entry `i` is
`log(freq_vec_[i])`. -/
def log_freq (log : Nat → F) (freq_vec_ : List Nat) (n : Nat) : List F :=
  (List.range n).map (fun i => log (freq_vec_.getD i 0))

/-- The vector `log_rank` of `run` after its `for_each`: entry `i` is
`log(i + 1)`, the counter being incremented before it is used. -/
def log_rank (log : Nat → F) (n : Nat) : List F :=
  (List.range n).map (fun i => log (i + 1))

/-- The member function `run(obj_map)`, with the library function `log`. -/
def run (log : Nat → F) (self : Popularity F) (obj_map : obj_info_map_type) :
    Logged (Popularity F) :=
  /- freq_vec_ is a sorted vec of obj frequency -/
  let pushed := obj_map.foldl (fun v p => v ++ [p.2.freq]) self.freq_vec_
  let self1 := { self with freq_vec_ := sort_greater pushed }
  if obj_map.length < 200 then
    let reason := "popularity: too few objects (" ++ toString obj_map.length ++
      "), skip the popularity computation"
    { obj := { self1 with fit_fail_reason_ := reason }, log := [reason ++ "\n"] }
  else
    let warned : Logged (Popularity F) :=
      if self1.freq_vec_.getD 0 0 < 200 then
        let reason := "popularity: the most popular object has " ++
          toString (self1.freq_vec_.getD 0 0) ++ " requests "
        { obj := { self1 with fit_fail_reason_ := reason }, log := [reason ++ "\n"] }
      else { obj := self1, log := [] }
    let self2 := warned.obj
    /- calculate Zipf alpha using linear regression -/
    let log_freq := log_freq log self2.freq_vec_ obj_map.length
    let log_rank := log_rank log obj_map.length
    let self3 := { self2 with slope_ := some (-PopularityUtils.slope log_rank log_freq) }
    { obj := { self3 with has_run := true }, log := warned.log }

/-- The constructor `Popularity(obj_map)`. -/
def ctor (log : Nat → F) (obj_map : obj_info_map_type) : Logged (Popularity F) :=
  run log members obj_map

end fit

/-- The member function `get_sorted_freq()`. -/
def get_sorted_freq (self : Popularity F) : List Nat := self.freq_vec_

/-- The stream insertion `os << popularity`: the stream after it, and the
lines logged. -/
def insert_into (os : List (Item F)) (popularity : Popularity F) :
    Logged (List (Item F)) :=
  if popularity.freq_vec_.isEmpty then
    { obj := os, log := ["popularity has not been computed\n"] }
  else if popularity.fit_fail_reason_.length > 0 then
    { obj := os ++ [.text popularity.fit_fail_reason_, .text "\n"], log := [] }
  else
    { obj := os ++ [.setprecision 4,
        .text "popularity: Zipf linear fitting slope=", .number popularity.slope_,
        .text ", intercept=", .number popularity.intercept_,
        .text ", R2=", .number popularity.r2_, .text "\n"],
      log := [] }

/-- The loop of `dump` over `freq_vec_` and the write that follows it: the
pairs `last_freq`, `freq_cnt` written, in order.  The counter `freq_cnt` is a
`uint32_t`. -/
def dump_loop : List Nat → Nat → Nat → List (Nat × Nat)
  | [], last_freq, freq_cnt => [(last_freq, freq_cnt)]
  | cnt :: rest, last_freq, freq_cnt =>
    if cnt = last_freq then dump_loop rest last_freq ((freq_cnt + 1) % 2 ^ 32)
    else (last_freq, freq_cnt) :: dump_loop rest cnt 1

/-- One line `last_freq:freq_cnt` of the dump. -/
def dump_line (p : Nat × Nat) : String :=
  toString p.1 ++ ":" ++ toString p.2

/-- What `dump` leaves behind: the lines logged, and the file written (its
path and its lines), if any. -/
structure Dumped where
  log : List String
  file : Option (String × List String)
deriving DecidableEq, Repr

/-- The member function `dump(path_base)`; `none` is a failed `assert`. -/
def dump (self : Popularity F) (path_base : String) : Option Dumped :=
  if self.freq_vec_.isEmpty then
    if self.has_run then none
    else some { log := ["popularity has not been computed\n"], file := none }
  else
    let ofile_path := path_base ++ ".popularity"
    /- convert sorted freq list to freq:cnt list sorted by freq -/
    let last_freq := self.freq_vec_.getD 0 0
    let freq_cnt := 0
    some { log := [],
           file := some (ofile_path,
             ["# " ++ path_base, "# freq (sorted):cnt - for Zipf plot"] ++
               (dump_loop self.freq_vec_ last_freq freq_cnt).map dump_line) }

end Popularity

/-- The frequency of the `k`-th object of the spec's scenario: the pattern
`5, 5, 5, 3, 3, 1` repeated. -/
def scenario_freq (k : Nat) : Nat := [5, 5, 5, 3, 3, 1].getD (k % 6) 0

/-- The spec's popularity scenario over `n` objects with identifiers
`0 .. n - 1`. -/
def scenario (n : Nat) : obj_info_map_type :=
  (List.range n).map (fun k => (k, { freq := scenario_freq k }))

/-- A map of 200 objects with identifiers `0 .. 199`, object `k` having been
requested `200 + k` times. -/
def busy_map : obj_info_map_type :=
  (List.range 200).map (fun k => (k, { freq := 200 + k }))

/-- A `Popularity` object whose `freq_vec_` is `5, 5, 3, 1`. -/
def small_popularity : Popularity Rat :=
  { fit_fail_reason_ := "popularity: too few objects (4), skip the popularity computation",
    freq_vec_ := [5, 5, 3, 1], slope_ := none, intercept_ := none, r2_ := none,
    has_run := false }

/-- The entries that a list of pairs `freq, count` stands for: `count` copies
of `freq` for each pair, in order. -/
def expand (runs : List (Nat × Nat)) : List Nat :=
  runs.flatMap (fun p => List.replicate p.2 p.1)

/-- The summary that `os << popularity` inserts when no reason is recorded. -/
def summary {F : Type} (slope_ intercept_ r2_ : Option F) : List (Item F) :=
  [.setprecision 4,
   .text "popularity: Zipf linear fitting slope=", .number slope_,
   .text ", intercept=", .number intercept_,
   .text ", R2=", .number r2_, .text "\n"]

/-! ## The least-squares fit, in the words of the spec -/

section least_squares

variable {F : Type} [Field F]

/-- The mean of a vector. -/
def mean (x : List F) : F := x.sum / (x.length : F)

/-- The least-squares slope by the sums formula:
`(n * Sum(x_i * y_i) - Sum(x_i) * Sum(y_i)) / (n * Sum(x_i ^ 2) - (Sum(x_i)) ^ 2)`. -/
def ols_slope (x y : List F) : F :=
  ((x.length : F) * (List.zipWith (fun a b => a * b) x y).sum - x.sum * y.sum) /
    ((x.length : F) * (x.map (fun a => a ^ 2)).sum - x.sum ^ 2)

/-- The least-squares slope by the centred formula:
`Sum((x_i - mean x) * (y_i - mean y)) / Sum((x_i - mean x) ^ 2)`. -/
def centered_slope (x y : List F) : F :=
  (List.zipWith (fun a b => (a - mean x) * (b - mean y)) x y).sum /
    (x.map (fun a => (a - mean x) ^ 2)).sum

/-- The sum of squared residuals `Sum((y_i - a * x_i - b) ^ 2)` of the line
with slope `a` and intercept `b`. -/
def squared_error (x y : List F) (a b : F) : F :=
  (List.zipWith (fun xi yi => (yi - a * xi - b) ^ 2) x y).sum

end least_squares

/-- The states a `Popularity` object can be in: the one the default
constructor leaves, and the ones the constructor from a map leaves.  No other
member function assigns to a data member. -/
inductive Reachable {F : Type} [Field F] (log : Nat → F) : Popularity F → Prop where
  | default_constructed : Reachable log Popularity.default_ctor
  | constructed (obj_map : obj_info_map_type) : Reachable log (Popularity.ctor log obj_map).obj

/-- A map of two objects, identifiers 1 and 2. -/
def two_objects : obj_info_map_type := [(1, { freq := 3 }), (2, { freq := 5 })]

/-- A map with the frequencies of `two_objects` under other identifiers and
in another order. -/
def two_objects_renamed : obj_info_map_type := [(7, { freq := 5 }), (9, { freq := 3 })]

end analysis


/-! # Theorems -/

namespace L2Cache

theorem is_live_eq_true_iff (h : Heap) (p : Ptr) :
    is_live h p = true ↔ ∃ a b, p = some a ∧ h[a]? = some b ∧ b.live = true := by
  cases p with
  | none => simp [is_live]
  | some a =>
    cases hb : h[a]? with
    | none => simp [is_live, hb]
    | some b => simp [is_live, hb]

theorem capacity_eq_some_iff (h : Heap) (p : Ptr) (c : Nat) :
    capacity h p = some c ↔
      ∃ a b, p = some a ∧ h[a]? = some b ∧ b.live = true ∧ b.cells.length = c := by
  cases p with
  | none => simp [capacity]
  | some a =>
    cases hb : h[a]? with
    | none => simp [capacity, hb]
    | some b =>
      by_cases hl : b.live = true
      · simp [capacity, hb, hl]
      · simp [capacity, hb, hl]

theorem is_live_of_capacity {h : Heap} {p : Ptr} {c : Nat} (hc : capacity h p = some c) :
    is_live h p = true := by
  obtain ⟨a, b, hp, hb, hl, _⟩ := (capacity_eq_some_iff h p c).1 hc
  exact (is_live_eq_true_iff h p).2 ⟨a, b, hp, hb, hl⟩

theorem TrainingMatrix.releasable {w : World} {n : Nat} (hw : TrainingMatrix w n) :
    Releasable w := fun _ =>
  ⟨hw.2.1, is_live_of_capacity hw.2.2.1, is_live_of_capacity hw.2.2.2⟩

/-- What `resize_matrix` computes on releasable buffers: it succeeds, and the
new heap is the old one with the old buffers released (when the recorded size
is not zero) followed by the two fresh blocks. -/
theorem resize_matrix_eq (w : World) (m : Int) (hrel : Releasable w) :
    ∃ h2 : Heap, h2.length = w.heap.length ∧
      (w.size ≠ 0 → is_live h2 w.x = false ∧ is_live h2 w.y = false) ∧
      (w.size = 0 → h2 = w.heap) ∧
      resize_matrix w m = .ok
        { params := w.params, heap := allocated h2 w.params.learner.n_feature m,
          x := some h2.length, y := some (h2.length + 1), size := to_int32 m } := by
  by_cases hs : w.size = 0
  · refine ⟨w.heap, rfl, fun h => absurd hs h, fun _ => rfl, ?_⟩
    simp [resize_matrix, hs, my_malloc_n, allocated]
  · obtain ⟨hne, hx, hy⟩ := hrel hs
    obtain ⟨a, ba, hxa, hba, hla⟩ := (is_live_eq_true_iff _ _).1 hx
    obtain ⟨b, bb, hyb, hbb, hlb⟩ := (is_live_eq_true_iff _ _).1 hy
    have hab : a ≠ b := by
      intro h; apply hne; rw [hxa, hyb, h]
    have hbb' : (w.heap.set a { ba with live := false })[b]? = some bb := by
      rw [List.getElem?_set_ne hab]; exact hbb
    have ha_lt : a < w.heap.length := (List.getElem?_eq_some_iff.1 hba).1
    have hb_lt : b < w.heap.length := (List.getElem?_eq_some_iff.1 hbb).1
    refine ⟨(w.heap.set a { ba with live := false }).set b { bb with live := false },
      by simp, fun _ => ⟨?_, ?_⟩, fun h => absurd h hs, ?_⟩
    · rw [hxa]
      simp [is_live, List.getElem?_set_ne hab.symm, ha_lt]
    · rw [hyb]
      simp [is_live, hb_lt]
    · simp [resize_matrix, hs, hxa, hyb, my_free, hba, hla, hbb', hlb, my_malloc_n, allocated]

theorem to_int32_eq_self {m : Int} (h0 : 0 ≤ m) (h1 : m ≤ 2 ^ 31 - 1) : to_int32 m = m := by
  unfold to_int32
  omega

theorem allocated_getElem?_of_lt (h : Heap) (nf : Nat) (m : Int) {a : Nat}
    (ha : a < h.length) : (allocated h nf m)[a]? = h[a]? := by
  unfold allocated
  exact List.getElem?_append_left ha

theorem is_live_allocated_of_lt (h : Heap) (nf : Nat) (m : Int) {a : Nat}
    (ha : a < h.length) : is_live (allocated h nf m) (some a) = is_live h (some a) := by
  simp only [is_live, allocated_getElem?_of_lt h nf m ha]

theorem allocated_getElem?_x (h : Heap) (nf : Nat) (m : Int) :
    (allocated h nf m)[h.length]? =
      some { cells := List.replicate
               (byte_count sizeof_feature_t (m * nf) / sizeof_feature_t) none,
             live := true } := by
  unfold allocated
  rw [List.getElem?_append_right (le_refl _)]
  simp

theorem allocated_getElem?_y (h : Heap) (nf : Nat) (m : Int) :
    (allocated h nf m)[h.length + 1]? =
      some { cells := List.replicate (byte_count sizeof_pred_t m / sizeof_pred_t) none,
             live := true } := by
  unfold allocated
  rw [List.getElem?_append_right (Nat.le_succ _)]
  simp

/-- A byte count that does not wrap is served with the cells asked for. -/
theorem byte_count_div_of_lt {n : Int} (h0 : 0 ≤ n) (h : 4 * n < 2 ^ 64) :
    byte_count 4 n / 4 = n.toNat := by
  unfold byte_count
  push_cast
  omega

/-- The product of a size that fits an `int32_t` and a feature count that fits
an `int`, taken as a count of 4-byte cells, does not wrap. -/
theorem four_mul_lt_of_int32 {m : Int} (nf : Nat) (hm0 : 0 ≤ m) (hm : m ≤ 2 ^ 31 - 1)
    (hnf : nf < 2 ^ 31) : 0 ≤ m * (nf : Int) ∧ 4 * (m * (nf : Int)) < 2 ^ 64 := by
  have hnf' : (nf : Int) ≤ 2 ^ 31 - 1 := by omega
  have hle : m * (nf : Int) ≤ (2 ^ 31 - 1) * (2 ^ 31 - 1) :=
    mul_le_mul hm hnf' (Int.ofNat_nonneg nf) (by norm_num)
  have h0 : 0 ≤ m * (nf : Int) := mul_nonneg hm0 (Int.ofNat_nonneg nf)
  refine ⟨h0, ?_⟩
  generalize m * (nf : Int) = p at hle h0
  omega

theorem toNat_mul_natCast {m : Int} (nf : Nat) (hm : 0 ≤ m) :
    (m * (nf : Int)).toNat = m.toNat * nf := by
  obtain ⟨k, rfl⟩ := Int.eq_ofNat_of_zero_le hm
  rw [← Int.natCast_mul]
  simp only [Int.toNat_natCast]

theorem capacity_allocated_x (h : Heap) (nf : Nat) (m : Int) :
    capacity (allocated h nf m) (some h.length) =
      some (byte_count sizeof_feature_t (m * nf) / sizeof_feature_t) := by
  simp [capacity, allocated_getElem?_x]

theorem capacity_allocated_y (h : Heap) (nf : Nat) (m : Int) :
    capacity (allocated h nf m) (some (h.length + 1)) =
      some (byte_count sizeof_pred_t m / sizeof_pred_t) := by
  simp [capacity, allocated_getElem?_y]

theorem join_getElem?_replicate_none (k i : Nat) :
    (List.replicate k (none : Option Nat))[i]?.join = none := by
  by_cases hi : i < k
  · simp [List.getElem?_replicate, hi]
  · simp [List.getElem?_replicate, hi]

theorem deref_allocated_x (h : Heap) (nf : Nat) (m : Int) (i : Nat) :
    deref (allocated h nf m) (some h.length) i = none := by
  simp only [deref, allocated_getElem?_x, if_true]
  exact join_getElem?_replicate_none _ _

theorem deref_allocated_y (h : Heap) (nf : Nat) (m : Int) (i : Nat) :
    deref (allocated h nf m) (some (h.length + 1)) i = none := by
  simp only [deref, allocated_getElem?_y, if_true]
  exact join_getElem?_replicate_none _ _

/-- A pointer that is live in `h` is an address below the length of `h`. -/
theorem lt_length_of_is_live {h : Heap} {p : Ptr} (hp : is_live h p = true) :
    ∃ a, p = some a ∧ a < h.length := by
  obtain ⟨a, b, hpa, hb, _⟩ := (is_live_eq_true_iff h p).1 hp
  exact ⟨a, hpa, (List.getElem?_eq_some_iff.1 hb).1⟩

/-- The shape of every run of `resize_matrix` on releasable buffers, in terms
of the reads and capacities of the world it leaves. -/
theorem resize_matrix_run (w : World) (m : Int) (hrel : Releasable w) :
    ∃ w', resize_matrix w m = .ok w' ∧ w'.params = w.params ∧ w'.size = to_int32 m ∧
      w'.x ≠ w'.y ∧
      capacity w'.heap w'.x =
        some (byte_count sizeof_feature_t (m * w.params.learner.n_feature) /
          sizeof_feature_t) ∧
      capacity w'.heap w'.y = some (byte_count sizeof_pred_t m / sizeof_pred_t) ∧
      (∀ i, deref w'.heap w'.x i = none) ∧ (∀ i, deref w'.heap w'.y i = none) ∧
      (w.size ≠ 0 → is_live w'.heap w.x = false ∧ is_live w'.heap w.y = false) ∧
      (w.size = 0 → ∀ a, a < w.heap.length → w'.heap[a]? = w.heap[a]?) := by
  obtain ⟨h2, hlen, hdead, hsame, hres⟩ := resize_matrix_eq w m hrel
  refine ⟨_, hres, rfl, rfl, by simp, capacity_allocated_x _ _ _, capacity_allocated_y _ _ _,
    deref_allocated_x _ _ _, deref_allocated_y _ _ _, ?_, ?_⟩
  · intro hs
    obtain ⟨_, hx, hy⟩ := hrel hs
    obtain ⟨a, hxa, ha⟩ := lt_length_of_is_live hx
    obtain ⟨b, hyb, hb⟩ := lt_length_of_is_live hy
    obtain ⟨hdx, hdy⟩ := hdead hs
    rw [hxa] at hdx ⊢
    rw [hyb] at hdy ⊢
    exact ⟨by rw [is_live_allocated_of_lt _ _ _ (hlen ▸ ha)]; exact hdx,
      by rw [is_live_allocated_of_lt _ _ _ (hlen ▸ hb)]; exact hdy⟩
  · intro hs a ha
    rw [hsame hs]
    exact allocated_getElem?_of_lt _ _ _ ha

/-- The cells `resize_matrix` allocates when neither byte count wraps. -/
theorem cells_of_no_wrap (nf : Nat) {m : Int} (hm : 0 ≤ m)
    (hx : (sizeof_feature_t : Int) * (m * nf) < 2 ^ 64)
    (hy : (sizeof_pred_t : Int) * m < 2 ^ 64) :
    byte_count sizeof_feature_t (m * nf) / sizeof_feature_t = m.toNat * nf ∧
    byte_count sizeof_pred_t m / sizeof_pred_t = m.toNat := by
  have h1 := byte_count_div_of_lt (mul_nonneg hm (Int.ofNat_nonneg nf)) hx
  have h2 := byte_count_div_of_lt hm hy
  rw [toNat_mul_natCast nf hm] at h1
  exact ⟨h1, h2⟩

/-- The shape of every run of `resize_matrix` on releasable buffers with a
new size that fits an `int32_t`: the allocations are the cells asked for. -/
theorem resize_matrix_spec (w : World) (m : Int) (hm : 0 ≤ m) (hm32 : m ≤ 2 ^ 31 - 1)
    (hrel : Releasable w) :
    ∃ w', resize_matrix w m = .ok w' ∧ w'.params = w.params ∧ w'.size = to_int32 m ∧
      w'.x ≠ w'.y ∧
      capacity w'.heap w'.x = some (m.toNat * w.params.learner.n_feature) ∧
      capacity w'.heap w'.y = some m.toNat ∧
      (∀ i, deref w'.heap w'.x i = none) ∧ (∀ i, deref w'.heap w'.y i = none) ∧
      (w.size ≠ 0 → is_live w'.heap w.x = false ∧ is_live w'.heap w.y = false) ∧
      (w.size = 0 → ∀ a, a < w.heap.length → w'.heap[a]? = w.heap[a]?) := by
  obtain ⟨w', hres, hpar, hsize, hne, hcx, hcy, hdx, hdy, hdead, hkeep⟩ :=
    resize_matrix_run w m hrel
  have hprod := four_mul_lt_of_int32 w.params.learner.n_feature hm hm32
    w.params.learner.n_feature_int
  have hcells := cells_of_no_wrap w.params.learner.n_feature hm hprod.2
    (show (sizeof_pred_t : Int) * m < 2 ^ 64 by
      show ((4 : Nat) : Int) * m < 2 ^ 64
      omega)
  rw [hcells.1] at hcx
  rw [hcells.2] at hcy
  exact ⟨w', hres, hpar, hsize, hne, hcx, hcy, hdx, hdy, hdead, hkeep⟩

/-- The world `resize_matrix` leaves from `one_row` with `new_size = 2`. -/
theorem resize_matrix_one_row :
    resize_matrix one_row 2 = .ok
      (World.mk one_row.params
        [Block.mk [some 3, some 4] false, Block.mk [some 1] false,
         Block.mk [none, none, none, none] true, Block.mk [none, none] true]
        (some 2) (some 3) 2) := by
  rfl

/-- The world `resize_matrix` leaves from `two_rows` with `new_size = 1`. -/
theorem resize_matrix_two_rows :
    resize_matrix two_rows 1 = .ok
      (World.mk two_rows.params
        [Block.mk [some 5, some 6] false, Block.mk [some 1, some 0] false,
         Block.mk [none] true, Block.mk [none] true]
        (some 2) (some 3) 1) := by
  rfl

theorem trainingMatrix_one_row : TrainingMatrix one_row 1 := by
  unfold TrainingMatrix
  decide

theorem trainingMatrix_two_rows : TrainingMatrix two_rows 2 := by
  unfold TrainingMatrix
  decide

/-- C1 (as stated) fails: `one_row` is a training matrix of one row, and after
`resize_matrix` with `new_size = 2` its row 0 is not what it was: `X[0]` held
`3` and is now an unwritten cell of a fresh block. -/
theorem resize_matrix_grow_loses_rows :
    TrainingMatrix one_row 1 ∧ (1 : Int) < 2 ∧
      ¬ ∃ w', resize_matrix one_row 2 = .ok w' ∧ rows_kept one_row w' 1 := by
  refine ⟨trainingMatrix_one_row, by decide, ?_⟩
  rintro ⟨w', hres, hkept⟩
  rw [resize_matrix_one_row] at hres
  cases hres
  have h0 := hkept.1 0 (by decide)
  revert h0
  decide

/-- C1 (as amended): growing a training matrix of `n > 0` rows to `m > n` rows
succeeds and leaves `X` and `Y` pointing to fresh live buffers in which no
cell, rows `0 .. n - 1` included, has been written; the old buffers, and the
rows they held, have been released.  The fresh buffers have `m * n_feature`
and `m` cells whenever `m` fits the recorded `int32_t` size. -/
theorem resize_matrix_grow_fresh (w : World) (n : Nat) (m : Int)
    (hw : TrainingMatrix w n) (hn : 0 < n) (hm : (n : Int) < m) :
    ∃ w', resize_matrix w m = .ok w' ∧
      is_live w'.heap w'.x = true ∧ is_live w'.heap w'.y = true ∧
      (m ≤ 2 ^ 31 - 1 →
        capacity w'.heap w'.x = some (m.toNat * w.params.learner.n_feature) ∧
        capacity w'.heap w'.y = some m.toNat) ∧
      (∀ i, deref w'.heap w'.x i = none) ∧ (∀ i, deref w'.heap w'.y i = none) ∧
      is_live w'.heap w.x = false ∧ is_live w'.heap w.y = false := by
  have hm0 : 0 ≤ m := le_of_lt (lt_of_le_of_lt (Int.ofNat_nonneg n) hm)
  have hs : w.size ≠ 0 := by
    rw [hw.1]; exact_mod_cast hn.ne'
  obtain ⟨w', hres, _, _, _, hcx, hcy, hdx, hdy, hdead, _⟩ :=
    resize_matrix_run w m hw.releasable
  refine ⟨w', hres, is_live_of_capacity hcx, is_live_of_capacity hcy, ?_, hdx, hdy, hdead hs⟩
  intro hm32
  obtain ⟨w2, hres2, _, _, _, hcx2, hcy2, _⟩ :=
    resize_matrix_spec w m hm0 hm32 hw.releasable
  rw [hres] at hres2
  cases hres2
  exact ⟨hcx2, hcy2⟩

/-- Witness of `resize_matrix_grow_fresh`: `one_row` grown to two rows. -/
theorem resize_matrix_grow_fresh_witness :
    TrainingMatrix one_row 1 ∧ 0 < 1 ∧ ((1 : Nat) : Int) < 2 ∧
    ∃ w', resize_matrix one_row 2 = .ok w' ∧
      capacity w'.heap w'.x = some ((2 : Int).toNat * one_row.params.learner.n_feature) ∧
      capacity w'.heap w'.y = some (2 : Int).toNat ∧
      (∀ i, deref w'.heap w'.x i = none) ∧ (∀ i, deref w'.heap w'.y i = none) ∧
      is_live w'.heap one_row.x = false ∧ is_live w'.heap one_row.y = false := by
  obtain ⟨w', hres, _, _, hcap, hdx, hdy, hlx, hly⟩ :=
    resize_matrix_grow_fresh one_row 1 2 trainingMatrix_one_row (by decide) (by decide)
  exact ⟨trainingMatrix_one_row, by decide, by decide, w', hres, (hcap (by decide)).1,
    (hcap (by decide)).2, hdx, hdy, hlx, hly⟩

/-- C2 (as stated) fails: `two_rows` is a training matrix of two rows, and
after `resize_matrix` with `new_size = 1` its row 0 is not the old row 0:
`X[0]` held `5` and is now an unwritten cell of a fresh block. -/
theorem resize_matrix_shrink_loses_rows :
    TrainingMatrix two_rows 2 ∧ (0 : Int) < 1 ∧ (1 : Int) < 2 ∧
      ¬ ∃ w', resize_matrix two_rows 1 = .ok w' ∧ rows_kept two_rows w' 1 := by
  refine ⟨trainingMatrix_two_rows, by decide, by decide, ?_⟩
  rintro ⟨w', hres, hkept⟩
  rw [resize_matrix_two_rows] at hres
  cases hres
  have h0 := hkept.1 0 (by decide)
  revert h0
  decide

/-- C2 (as amended): shrinking a training matrix of `n` rows (`n` an `int32_t`)
to `0 < m < n` rows succeeds and leaves a matrix of exactly `m` rows and `m`
labels: the recorded size is `m` and `X`, `Y` are buffers of `m * n_feature`
and `m` cells.  They are fresh buffers in which no cell has been written, the
same whatever the old contents were; the old buffers have been released. -/
theorem resize_matrix_shrink_fresh (w : World) (n : Nat) (m : Int)
    (hw : TrainingMatrix w n) (hn : (n : Int) ≤ 2 ^ 31 - 1) (hm0 : 0 < m) (hm : m < n) :
    ∃ w', resize_matrix w m = .ok w' ∧ w'.size = m ∧
      capacity w'.heap w'.x = some (m.toNat * w.params.learner.n_feature) ∧
      capacity w'.heap w'.y = some m.toNat ∧
      (∀ i, deref w'.heap w'.x i = none) ∧ (∀ i, deref w'.heap w'.y i = none) ∧
      is_live w'.heap w.x = false ∧ is_live w'.heap w.y = false := by
  have hs : w.size ≠ 0 := by
    rw [hw.1]; omega
  obtain ⟨w', hres, _, hsize, _, hcx, hcy, hdx, hdy, hdead, _⟩ :=
    resize_matrix_spec w m hm0.le (by omega) hw.releasable
  refine ⟨w', hres, ?_, hcx, hcy, hdx, hdy, hdead hs⟩
  rw [hsize]
  exact to_int32_eq_self hm0.le (by omega)

/-- Witness of `resize_matrix_shrink_fresh`: `two_rows` shrunk to one row. -/
theorem resize_matrix_shrink_fresh_witness :
    TrainingMatrix two_rows 2 ∧ ((2 : Nat) : Int) ≤ 2 ^ 31 - 1 ∧ (0 : Int) < 1 ∧
    (1 : Int) < (2 : Nat) ∧
    ∃ w', resize_matrix two_rows 1 = .ok w' ∧ w'.size = 1 ∧
      capacity w'.heap w'.x = some ((1 : Int).toNat * two_rows.params.learner.n_feature) ∧
      capacity w'.heap w'.y = some (1 : Int).toNat ∧
      (∀ i, deref w'.heap w'.x i = none) ∧ (∀ i, deref w'.heap w'.y i = none) ∧
      is_live w'.heap two_rows.x = false ∧ is_live w'.heap two_rows.y = false :=
  ⟨trainingMatrix_two_rows, by decide, by decide, by decide,
    resize_matrix_shrink_fresh two_rows 2 1 trainingMatrix_two_rows (by decide) (by decide)
      (by decide)⟩

/-- C10: on releasable buffers and for `0 <= new_size <= 2 ^ 31 - 1`,
`resize_matrix` succeeds; afterwards the recorded size is `new_size`, `X` has
`new_size * n_feature` cells and `Y` has `new_size` cells, so that the world
is a training matrix of `new_size` rows (the parallel-buffer invariant); the
old buffers are released when the old recorded size is not zero, and when it
is zero no block of the old heap is touched; `n_feature` is unchanged. -/
theorem resize_matrix_reallocates (w : World) (m : Int) (hrel : Releasable w)
    (hm0 : 0 ≤ m) (hm : m ≤ 2 ^ 31 - 1) :
    ∃ w', resize_matrix w m = .ok w' ∧ w'.size = m ∧
      capacity w'.heap w'.x = some (m.toNat * w'.params.learner.n_feature) ∧
      capacity w'.heap w'.y = some m.toNat ∧
      TrainingMatrix w' m.toNat ∧
      (w.size ≠ 0 → is_live w'.heap w.x = false ∧ is_live w'.heap w.y = false) ∧
      (w.size = 0 → ∀ a, a < w.heap.length → w'.heap[a]? = w.heap[a]?) ∧
      w'.params.learner.n_feature = w.params.learner.n_feature := by
  obtain ⟨w', hres, hpar, hsize, hne, hcx, hcy, _, _, hdead, hkeep⟩ :=
    resize_matrix_spec w m hm0 hm hrel
  have hsz : w'.size = m := by rw [hsize]; exact to_int32_eq_self hm0 hm
  rw [← hpar] at hcx
  refine ⟨w', hres, hsz, hcx, hcy, ⟨?_, hne, hcx, hcy⟩, hdead, hkeep, by rw [hpar]⟩
  rw [hsz]
  exact (Int.toNat_of_nonneg hm0).symm

/-- Witness of `resize_matrix_reallocates`: `two_rows` resized to three rows. -/
theorem resize_matrix_reallocates_witness :
    Releasable two_rows ∧ (0 : Int) ≤ 3 ∧ (3 : Int) ≤ 2 ^ 31 - 1 ∧
    ∃ w', resize_matrix two_rows 3 = .ok w' ∧ w'.size = 3 ∧
      capacity w'.heap w'.x = some ((3 : Int).toNat * w'.params.learner.n_feature) ∧
      capacity w'.heap w'.y = some (3 : Int).toNat ∧
      TrainingMatrix w' (3 : Int).toNat ∧
      (two_rows.size ≠ 0 →
        is_live w'.heap two_rows.x = false ∧ is_live w'.heap two_rows.y = false) ∧
      (two_rows.size = 0 → ∀ a, a < two_rows.heap.length → w'.heap[a]? = two_rows.heap[a]?) ∧
      w'.params.learner.n_feature = two_rows.params.learner.n_feature :=
  ⟨trainingMatrix_two_rows.releasable, by decide, by decide,
    resize_matrix_reallocates two_rows 3 trainingMatrix_two_rows.releasable (by decide)
      (by decide)⟩

end L2Cache

namespace analysis

theorem foldl_push_back (obj_map : obj_info_map_type) (init : List Nat) :
    obj_map.foldl (fun v p => v ++ [p.2.freq]) init = init ++ freqs obj_map := by
  induction obj_map generalizing init with
  | nil => simp [freqs]
  | cons p rest ih => simp [List.foldl_cons, ih, freqs]

theorem sorted_sort_greater (v : List Nat) :
    List.Sorted (fun a b => a ≥ b) (sort_greater v) :=
  List.sorted_insertionSort (fun a b => a ≥ b) v

theorem perm_sort_greater (v : List Nat) : (sort_greater v).Perm v :=
  List.perm_insertionSort (fun a b => a ≥ b) v

theorem length_sort_greater (v : List Nat) : (sort_greater v).length = v.length :=
  (perm_sort_greater v).length_eq

theorem sort_greater_ne_nil {v : List Nat} (h : v ≠ []) : sort_greater v ≠ [] := by
  intro h0
  have := length_sort_greater v
  rw [h0] at this
  exact h (List.length_eq_zero.1 this.symm)

theorem freqs_ne_nil {obj_map : obj_info_map_type} (h : obj_map ≠ []) : freqs obj_map ≠ [] := by
  simpa [freqs] using h

theorem ne_nil_of_le_length {obj_map : obj_info_map_type} {k : Nat} (hk : 0 < k)
    (h : k ≤ obj_map.length) : obj_map ≠ [] := by
  intro h0
  rw [h0] at h
  simp at h
  omega

/-- In a vector in non-increasing order, a later entry is at most an earlier
one. -/
theorem getD_antitone_of_sorted {v : List Nat} (hs : List.Sorted (fun a b => a ≥ b) v)
    {i j : Nat} (hij : i ≤ j) (hj : j < v.length) : v.getD j 0 ≤ v.getD i 0 := by
  have hi : i < v.length := lt_of_le_of_lt hij hj
  rw [List.getD_eq_getElem v 0 hi, List.getD_eq_getElem v 0 hj]
  rcases Nat.eq_or_lt_of_le hij with h | h
  · subst h; exact le_refl _
  · exact (List.pairwise_iff_getElem.1 hs) i j hi hj h

/-- Every entry of `v` is at most the first entry of the sorted vector. -/
theorem le_head_sort_greater {v : List Nat} {f : Nat} (hf : f ∈ v) :
    f ≤ (sort_greater v).getD 0 0 := by
  have hmem : f ∈ sort_greater v := (perm_sort_greater v).mem_iff.2 hf
  obtain ⟨i, hi, rfl⟩ := List.getElem_of_mem hmem
  rw [← List.getD_eq_getElem (sort_greater v) 0 hi]
  exact getD_antitone_of_sorted (sorted_sort_greater v) (Nat.zero_le i) hi

/-- The first entry of the sorted vector is an entry of `v`. -/
theorem head_sort_greater_mem {v : List Nat} (h : v ≠ []) :
    (sort_greater v).getD 0 0 ∈ v := by
  have hpos : 0 < (sort_greater v).length :=
    List.length_pos.2 (sort_greater_ne_nil h)
  rw [List.getD_eq_getElem (sort_greater v) 0 hpos]
  exact (perm_sort_greater v).mem_iff.1 (List.getElem_mem _)

theorem mem_freqs {obj_map : obj_info_map_type} {f : Nat} :
    f ∈ freqs obj_map ↔ ∃ p ∈ obj_map, p.2.freq = f := by
  simp [freqs]

namespace Popularity

/-- Whichever branch `run` takes, `freq_vec_` is the sorted vector. -/
theorem run_freq_vec {F : Type} [Field F] (log : Nat → F) (self : Popularity F) (obj_map : obj_info_map_type) :
    (run log self obj_map).obj.freq_vec_ = sort_greater (self.freq_vec_ ++ freqs obj_map) := by
  unfold run
  simp only [foldl_push_back]
  split_ifs <;> rfl

theorem ctor_freq_vec {F : Type} [Field F] (log : Nat → F) (obj_map : obj_info_map_type) :
    (ctor log obj_map).obj.freq_vec_ = sort_greater (freqs obj_map) := by
  unfold ctor
  rw [run_freq_vec]
  rfl

/-- The object and the log that `Popularity(obj_map)` leaves for a map of fewer
than 200 objects. -/
theorem ctor_too_few {F : Type} [Field F] (log : Nat → F) (obj_map : obj_info_map_type)
    (h : obj_map.length < 200) :
    ctor log obj_map =
      { obj := { fit_fail_reason_ := too_few_objects obj_map.length,
                 freq_vec_ := sort_greater (freqs obj_map),
                 slope_ := none, intercept_ := none, r2_ := none, has_run := false },
        log := [too_few_objects obj_map.length ++ "\n"] } := by
  unfold ctor run
  simp only [foldl_push_back, if_pos h]
  rfl

/-- The object and the log that `Popularity(obj_map)` leaves for a map of at
least 200 objects. -/
theorem ctor_fit {F : Type} [Field F] (log : Nat → F) (obj_map : obj_info_map_type)
    (h : 200 ≤ obj_map.length) :
    ctor log obj_map =
      { obj := { fit_fail_reason_ :=
                   if (sort_greater (freqs obj_map)).getD 0 0 < 200 then
                     most_popular ((sort_greater (freqs obj_map)).getD 0 0)
                   else "",
                 freq_vec_ := sort_greater (freqs obj_map),
                 slope_ := some (-PopularityUtils.slope (log_rank log obj_map.length)
                   (log_freq log (sort_greater (freqs obj_map)) obj_map.length)),
                 intercept_ := none, r2_ := none, has_run := true },
        log := if (sort_greater (freqs obj_map)).getD 0 0 < 200 then
                 [most_popular ((sort_greater (freqs obj_map)).getD 0 0) ++ "\n"]
               else [] } := by
  unfold ctor run
  simp only [foldl_push_back, if_neg (not_lt.2 h),
    show (members : Popularity F).freq_vec_ = [] from rfl, List.nil_append]
  by_cases hc : (sort_greater (freqs obj_map)).getD 0 0 < 200
  · simp only [if_pos hc]; rfl
  · simp only [if_neg hc]; rfl

theorem too_few_objects_length_pos (n : Nat) : 0 < (too_few_objects n).length := by
  simp only [too_few_objects, String.length_append]
  have : 0 < "popularity: too few objects (".length := by decide
  omega

theorem most_popular_length_pos (k : Nat) : 0 < (most_popular k).length := by
  simp only [most_popular, String.length_append]
  have : 0 < "popularity: the most popular object has ".length := by decide
  omega

/-- What `os << popularity` does to an object with a recorded reason and a
non-empty `freq_vec_`. -/
theorem insert_into_reason {F : Type} (os : List (Item F)) (p : Popularity F)
    (hv : p.freq_vec_ ≠ []) (hr : 0 < p.fit_fail_reason_.length) :
    insert_into os p = { obj := os ++ [.text p.fit_fail_reason_, .text "\n"], log := [] } := by
  unfold insert_into
  rw [if_neg (by simpa using hv), if_pos hr]

/-- What `os << popularity` does to an object with no recorded reason and a
non-empty `freq_vec_`. -/
theorem insert_into_summary {F : Type} (os : List (Item F)) (p : Popularity F)
    (hv : p.freq_vec_ ≠ []) (hr : p.fit_fail_reason_ = "") :
    insert_into os p = { obj := os ++ summary p.slope_ p.intercept_ p.r2_, log := [] } := by
  unfold insert_into
  rw [if_neg (by simpa using hv), if_neg (by rw [hr]; decide)]
  rfl

/-- What `os << popularity` does to an object with an empty `freq_vec_`. -/
theorem insert_into_empty {F : Type} (os : List (Item F)) (p : Popularity F) (hv : p.freq_vec_ = []) :
    insert_into os p = { obj := os, log := ["popularity has not been computed\n"] } := by
  unfold insert_into
  rw [if_pos (by simp [hv])]

end Popularity

/-- C3: for every map, the `freq_vec_` that `Popularity(obj_map)` builds, as
returned by `get_sorted_freq`, is in non-increasing order and is a permutation
of the map's frequencies: it has the length of the map and every value occurs
in it as often as among the map's frequencies. -/
theorem popularity_freq_vec_sorted_perm {F : Type} [Field F] (log : Nat → F)
    (obj_map : obj_info_map_type) :
    List.Sorted (fun a b => a ≥ b) (Popularity.get_sorted_freq (Popularity.ctor log obj_map).obj) ∧
    (Popularity.get_sorted_freq (Popularity.ctor log obj_map).obj).Perm (freqs obj_map) ∧
    (Popularity.get_sorted_freq (Popularity.ctor log obj_map).obj).length = obj_map.length ∧
    ∀ f : Nat, (Popularity.get_sorted_freq (Popularity.ctor log obj_map).obj).count f =
      (freqs obj_map).count f := by
  unfold Popularity.get_sorted_freq
  rw [Popularity.ctor_freq_vec]
  refine ⟨sorted_sort_greater _, perm_sort_greater _, ?_, fun f => ?_⟩
  · rw [length_sort_greater]; simp [freqs]
  · exact (perm_sort_greater _).count_eq f

/-- C4: for every map of fewer than 200 objects, `Popularity(obj_map)` returns
(no failure) with the skip reason "popularity: too few objects (n), skip the
popularity computation" recorded and logged, `n` being the number of objects;
`slope_`, `intercept_` and `r2_` are left unassigned and `has_run` is false,
the object being one in which the fit has no part; `freq_vec_` is populated
with the map's frequencies in non-increasing order. -/
theorem popularity_too_few_objects {F : Type} [Field F] (log : Nat → F)
    (obj_map : obj_info_map_type) (h : obj_map.length < 200) :
    Popularity.ctor log obj_map =
      { obj := { fit_fail_reason_ :=
                   "popularity: too few objects (" ++ toString obj_map.length ++
                     "), skip the popularity computation",
                 freq_vec_ := sort_greater (freqs obj_map),
                 slope_ := none, intercept_ := none, r2_ := none, has_run := false },
        log := ["popularity: too few objects (" ++ toString obj_map.length ++
                  "), skip the popularity computation" ++ "\n"] } ∧
    (Popularity.ctor log obj_map).obj.freq_vec_.length = obj_map.length ∧
    List.Sorted (fun a b => a ≥ b) (Popularity.ctor log obj_map).obj.freq_vec_ ∧
    (Popularity.ctor log obj_map).obj.freq_vec_.Perm (freqs obj_map) := by
  refine ⟨Popularity.ctor_too_few log obj_map h, ?_, ?_, ?_⟩
  · rw [Popularity.ctor_freq_vec, length_sort_greater]; simp [freqs]
  · rw [Popularity.ctor_freq_vec]; exact sorted_sort_greater _
  · rw [Popularity.ctor_freq_vec]; exact perm_sort_greater _

/-- Witness of `popularity_too_few_objects`: the spec's scenario over 10
objects. -/
theorem popularity_too_few_objects_witness :
    (scenario 10).length < 200 ∧
    (Popularity.ctor (fun n => Real.log n) (scenario 10)).obj.fit_fail_reason_ =
      "popularity: too few objects (10), skip the popularity computation" ∧
    (Popularity.ctor (fun n => Real.log n) (scenario 10)).obj.slope_ = none ∧
    (Popularity.ctor (fun n => Real.log n) (scenario 10)).obj.has_run = false ∧
    (Popularity.ctor (fun n => Real.log n) (scenario 10)).obj.freq_vec_ =
      [5, 5, 5, 5, 5, 5, 3, 3, 3, 1] := by
  have h := (popularity_too_few_objects (fun n => Real.log n) (scenario 10) (by decide)).1
  refine ⟨by decide, ?_, ?_, ?_, ?_⟩
  · rw [h]; decide
  · rw [h]
  · rw [h]
  · rw [h]; decide

theorem length_scenario (n : Nat) : (scenario n).length = n := by
  simp [scenario]

theorem length_busy_map : busy_map.length = 200 := by
  simp [busy_map]

set_option maxRecDepth 100000 in
theorem head_scenario_200 : (sort_greater (freqs (scenario 200))).getD 0 0 = 5 := by
  decide

set_option maxRecDepth 100000 in
theorem head_busy_map : (sort_greater (freqs busy_map)).getD 0 0 = 399 := by
  decide

/-- For a map of at least 200 objects, the first entry of `freq_vec_` is below
200 exactly when every frequency is. -/
theorem head_lt_iff {obj_map : obj_info_map_type} (h : 200 ≤ obj_map.length) :
    (sort_greater (freqs obj_map)).getD 0 0 < 200 ↔ ∀ p ∈ obj_map, p.2.freq < 200 := by
  constructor
  · intro hlt p hp
    exact lt_of_le_of_lt (le_head_sort_greater (mem_freqs.2 ⟨p, hp, rfl⟩)) hlt
  · intro hall
    obtain ⟨p, hp, hpf⟩ := mem_freqs.1
      (head_sort_greater_mem (freqs_ne_nil (ne_nil_of_le_length (by decide) h)))
    rw [← hpf]
    exact hall p hp

theorem ctor_freq_vec_ne_nil {F : Type} [Field F] (log : Nat → F)
    {obj_map : obj_info_map_type} (h : obj_map ≠ []) :
    (Popularity.ctor log obj_map).obj.freq_vec_ ≠ [] := by
  rw [Popularity.ctor_freq_vec]
  exact sort_greater_ne_nil (freqs_ne_nil h)

/-- C5 (as stated) fails on the spec's own scenario: over the 200 objects with
frequencies `5, 5, 5, 3, 3, 1` repeated, `Popularity(obj_map)` does record a
reason, and the report prints that reason, not the fit summary. -/
theorem popularity_scenario_records_reason :
    200 ≤ (scenario 200).length ∧
    (Popularity.ctor (fun n => Real.log n) (scenario 200)).obj.fit_fail_reason_ =
      "popularity: the most popular object has 5 requests " ∧
    (Popularity.ctor (fun n => Real.log n) (scenario 200)).obj.fit_fail_reason_ ≠ "" ∧
    Popularity.insert_into []
        (Popularity.ctor (fun n => Real.log n) (scenario 200)).obj =
      { obj := [.text "popularity: the most popular object has 5 requests ", .text "\n"],
        log := [] } := by
  have hlen : 200 ≤ (scenario 200).length := by rw [length_scenario]
  have hr : (Popularity.ctor (fun n => Real.log n) (scenario 200)).obj.fit_fail_reason_ =
      "popularity: the most popular object has 5 requests " := by
    rw [Popularity.ctor_fit _ _ hlen]
    simp only [head_scenario_200]
    decide
  refine ⟨hlen, hr, by rw [hr]; decide, ?_⟩
  rw [Popularity.insert_into_reason [] _
    (ctor_freq_vec_ne_nil _ (ne_nil_of_le_length (by decide) hlen)) (by rw [hr]; decide), hr]
  rfl

/-- C5 (as amended): for every map of at least 200 objects, no reason is
recorded and the report prints the fit summary when some object has been
requested at least 200 times; when every frequency is below 200, the reason
"popularity: the most popular object has k requests " is recorded, `k` being
the first entry of `freq_vec_`, and the report prints that reason. -/
theorem popularity_reason_of_enough_objects {F : Type} [Field F] (log : Nat → F)
    (obj_map : obj_info_map_type) (h : 200 ≤ obj_map.length) :
    ((∃ p ∈ obj_map, 200 ≤ p.2.freq) →
      (Popularity.ctor log obj_map).obj.fit_fail_reason_ = "" ∧
      ∀ os, Popularity.insert_into os (Popularity.ctor log obj_map).obj =
        { obj := os ++ summary (Popularity.ctor log obj_map).obj.slope_
                   (Popularity.ctor log obj_map).obj.intercept_
                   (Popularity.ctor log obj_map).obj.r2_,
          log := [] }) ∧
    ((∀ p ∈ obj_map, p.2.freq < 200) →
      (Popularity.ctor log obj_map).obj.fit_fail_reason_ =
        "popularity: the most popular object has " ++
          toString ((Popularity.ctor log obj_map).obj.freq_vec_.getD 0 0) ++ " requests " ∧
      ∀ os, Popularity.insert_into os (Popularity.ctor log obj_map).obj =
        { obj := os ++ [.text ("popularity: the most popular object has " ++
                   toString ((Popularity.ctor log obj_map).obj.freq_vec_.getD 0 0) ++
                   " requests "), .text "\n"],
          log := [] }) := by
  have hne := ctor_freq_vec_ne_nil log (ne_nil_of_le_length (by decide) h)
  constructor
  · rintro ⟨p, hp, hpf⟩
    have hc : ¬ (sort_greater (freqs obj_map)).getD 0 0 < 200 := by
      rw [head_lt_iff h]
      exact fun hall => absurd (hall p hp) (not_lt.2 hpf)
    have hr : (Popularity.ctor log obj_map).obj.fit_fail_reason_ = "" := by
      rw [Popularity.ctor_fit log obj_map h]
      simp only [if_neg hc]
    exact ⟨hr, fun os => Popularity.insert_into_summary os _ hne hr⟩
  · intro hall
    have hc : (sort_greater (freqs obj_map)).getD 0 0 < 200 := (head_lt_iff h).2 hall
    have hr : (Popularity.ctor log obj_map).obj.fit_fail_reason_ =
        most_popular ((Popularity.ctor log obj_map).obj.freq_vec_.getD 0 0) := by
      rw [Popularity.ctor_fit log obj_map h]
      simp only [if_pos hc]
    refine ⟨hr, fun os => ?_⟩
    rw [Popularity.insert_into_reason os _ hne
      (by rw [hr]; exact Popularity.most_popular_length_pos _), hr]
    rfl

/-- Witness of `popularity_reason_of_enough_objects`: the map `busy_map`, whose
most popular object has been requested 399 times. -/
theorem popularity_reason_of_enough_objects_witness :
    200 ≤ busy_map.length ∧ (∃ p ∈ busy_map, 200 ≤ p.2.freq) ∧
    (Popularity.ctor (fun n => Real.log n) busy_map).obj.fit_fail_reason_ = "" :=
  ⟨by rw [length_busy_map], ⟨(0, { freq := 200 }), by simp [busy_map], by decide⟩,
    ((popularity_reason_of_enough_objects (fun n => Real.log n) busy_map
      (by rw [length_busy_map])).1
      ⟨(0, { freq := 200 }), by simp [busy_map], by decide⟩).1⟩

/-- C8 (as stated) fails for the empty map: `Popularity(obj_map)` records the
reason for 0 objects, yet streaming the object inserts nothing into the
stream; the only output is the logged error "popularity has not been
computed". -/
theorem popularity_empty_map_emits_nothing :
    ([] : obj_info_map_type).length < 200 ∧
    (Popularity.ctor (fun n => Real.log n) []).obj.fit_fail_reason_ =
      "popularity: too few objects (0), skip the popularity computation" ∧
    Popularity.insert_into [] (Popularity.ctor (fun n => Real.log n) []).obj =
      { obj := [], log := ["popularity has not been computed\n"] } := by
  have h := Popularity.ctor_too_few (fun n => Real.log n) [] (by decide)
  refine ⟨by decide, ?_, ?_⟩
  · rw [h]; decide
  · rw [Popularity.insert_into_empty [] _ (by rw [h]; rfl)]

/-- C8 (as amended): for every map of fewer than 200 objects, streaming the
`Popularity` object returns (no failure).  When the map is not empty it
appends the recorded reason and a newline to the stream, nothing else, and
logs nothing; when the map is empty it leaves the stream as it was and logs
the error "popularity has not been computed". -/
theorem popularity_insert_too_few {F : Type} [Field F] (log : Nat → F)
    (obj_map : obj_info_map_type) (h : obj_map.length < 200) (os : List (Item F)) :
    (obj_map ≠ [] →
      Popularity.insert_into os (Popularity.ctor log obj_map).obj =
        { obj := os ++ [.text ("popularity: too few objects (" ++ toString obj_map.length ++
                   "), skip the popularity computation"), .text "\n"],
          log := [] }) ∧
    (obj_map = [] →
      Popularity.insert_into os (Popularity.ctor log obj_map).obj =
        { obj := os, log := ["popularity has not been computed\n"] }) := by
  have hc := Popularity.ctor_too_few log obj_map h
  constructor
  · intro hne
    rw [Popularity.insert_into_reason os _ (ctor_freq_vec_ne_nil log hne)
      (by rw [hc]; exact Popularity.too_few_objects_length_pos _), hc]
    rfl
  · intro he
    exact Popularity.insert_into_empty os _ (by rw [Popularity.ctor_freq_vec, he]; rfl)

/-- Witness of `popularity_insert_too_few`: the spec's scenario over 10
objects, streamed into an empty stream. -/
theorem popularity_insert_too_few_witness :
    (scenario 10).length < 200 ∧ scenario 10 ≠ [] ∧
    Popularity.insert_into ([] : List (Item ℝ))
        (Popularity.ctor (fun n => Real.log n) (scenario 10)).obj =
      { obj := [] ++ [.text ("popularity: too few objects (" ++
                 toString (scenario 10).length ++ "), skip the popularity computation"),
               .text "\n"],
        log := [] } :=
  ⟨by decide, by decide,
    (popularity_insert_too_few (fun n => Real.log n) (scenario 10) (by decide) []).1
      (by decide)⟩

/-- C9, the code at `busy_map` (200 objects, the most popular one requested 399
times): no reason is recorded, so the report prints the summary; `run` has
assigned `slope_` (the negated slope of the fit) and nothing to `intercept_`
and `r2_`, which the summary prints although they were never assigned. -/
theorem popularity_summary_unassigned :
    200 ≤ busy_map.length ∧
    (Popularity.ctor (fun n => Real.log n) busy_map).obj.fit_fail_reason_ = "" ∧
    (Popularity.ctor (fun n => Real.log n) busy_map).obj.intercept_ = none ∧
    (Popularity.ctor (fun n => Real.log n) busy_map).obj.r2_ = none ∧
    Popularity.insert_into [] (Popularity.ctor (fun n => Real.log n) busy_map).obj =
      { obj := [.setprecision 4,
                .text "popularity: Zipf linear fitting slope=",
                .number (some (-PopularityUtils.slope
                  (Popularity.log_rank (fun n => Real.log n) 200)
                  (Popularity.log_freq (fun n => Real.log n) (sort_greater (freqs busy_map))
                    200))),
                .text ", intercept=", .number none,
                .text ", R2=", .number none, .text "\n"],
        log := [] } := by
  have hlen : 200 ≤ busy_map.length := by rw [length_busy_map]
  have hc := Popularity.ctor_fit (fun n => Real.log n) busy_map hlen
  have hr : (Popularity.ctor (fun n => Real.log n) busy_map).obj.fit_fail_reason_ = "" := by
    rw [hc]
    simp only [head_busy_map]
    decide
  refine ⟨hlen, hr, by rw [hc], by rw [hc], ?_⟩
  rw [Popularity.insert_into_summary [] _
    (ctor_freq_vec_ne_nil _ (ne_nil_of_le_length (by decide) hlen)) hr, hc, length_busy_map]
  rfl

/-- The entries a list of runs `freq, count` stands for. -/
theorem expand_cons (p : Nat × Nat) (runs : List (Nat × Nat)) :
    expand (p :: runs) = List.replicate p.2 p.1 ++ expand runs := by
  simp [expand]

/-- Every frequency `dump_loop` writes is `last_freq` or an entry still to be
read. -/
theorem fst_mem_dump_loop (rest : List Nat) (last c : Nat) (p : Nat × Nat)
    (hp : p ∈ Popularity.dump_loop rest last c) : p.1 = last ∨ p.1 ∈ rest := by
  induction rest generalizing last c with
  | nil =>
    simp only [Popularity.dump_loop, List.mem_singleton] at hp
    left; rw [hp]
  | cons a t ih =>
    simp only [Popularity.dump_loop] at hp
    split_ifs at hp with h
    · rcases ih _ _ hp with h1 | h1
      · left; exact h1
      · right; exact List.mem_cons_of_mem _ h1
    · rcases List.mem_cons.1 hp with h1 | h1
      · left; rw [h1]
      · rcases ih _ _ h1 with h2 | h2
        · right; rw [h2]; exact List.mem_cons_self _ _
        · right; exact List.mem_cons_of_mem _ h2

/-- The loop of `dump`, started with `freq_cnt >= 1` copies of `last_freq`
already counted and entries in non-increasing order still to be read, writes a
run-length encoding of what it has counted and what it reads, as long as the
counter stays below `2 ^ 32`. -/
theorem dump_loop_spec (rest : List Nat) (last c : Nat) (hc : 1 ≤ c)
    (hlen : c + rest.length < 2 ^ 32)
    (hs : List.Sorted (fun a b => a ≥ b) (last :: rest)) :
    expand (Popularity.dump_loop rest last c) = List.replicate c last ++ rest ∧
    ((Popularity.dump_loop rest last c).map Prod.snd).sum = c + rest.length ∧
    (∀ p ∈ Popularity.dump_loop rest last c, 1 ≤ p.2) ∧
    List.Sorted (fun a b => a > b) ((Popularity.dump_loop rest last c).map Prod.fst) := by
  induction rest generalizing last c with
  | nil =>
    simp [Popularity.dump_loop, expand, hc]
  | cons a t ih =>
    have hst : List.Sorted (fun a b => a ≥ b) (a :: t) := List.Sorted.of_cons hs
    have hla : last ≥ a := List.rel_of_sorted_cons hs a (List.mem_cons_self _ _)
    simp only [List.length_cons] at hlen
    by_cases h : a = last
    · subst h
      have hmod : (c + 1) % 2 ^ 32 = c + 1 := Nat.mod_eq_of_lt (by omega)
      simp only [Popularity.dump_loop, if_true, hmod]
      obtain ⟨h1, h2, h3, h4⟩ := ih a (c + 1) (by omega) (by omega) hst
      refine ⟨?_, ?_, h3, h4⟩
      · rw [h1, List.replicate_succ', List.append_assoc]; rfl
      · rw [h2, List.length_cons]; omega
    · simp only [Popularity.dump_loop, if_neg h]
      obtain ⟨h1, h2, h3, h4⟩ := ih a 1 (le_refl 1) (by omega) hst
      refine ⟨?_, ?_, ?_, ?_⟩
      · rw [expand_cons, h1]; rfl
      · simp only [List.map_cons, List.sum_cons, h2, List.length_cons]; omega
      · intro p hp
        rcases List.mem_cons.1 hp with hp1 | hp1
        · rw [hp1]; exact hc
        · exact h3 p hp1
      · simp only [List.map_cons]
        refine List.sorted_cons.2 ⟨?_, h4⟩
        · intro b hb
          obtain ⟨p, hp, rfl⟩ := List.mem_map.1 hb
          have hlt : a < last := lt_of_le_of_ne hla h
          rcases fst_mem_dump_loop t a 1 p hp with h5 | h5
          · show last > p.1
            rw [h5]; exact hlt
          · exact lt_of_le_of_lt (List.rel_of_sorted_cons hst p.1 h5) hlt

/-- C7: for every non-empty `freq_vec_` in non-increasing order, within the
range of the `uint32_t` counter of `dump` (fewer than `2 ^ 32` entries, which
covers every vector `run` can build, its own index being an `int`), `dump`
writes the two header lines followed by one line `freq:count` per pair of a
run-length encoding of `freq_vec_`: the frequencies of successive pairs are
strictly decreasing, every count is at least 1, the counts sum to the number
of entries, and expanding each pair into `count` copies of `freq` and
concatenating gives back `freq_vec_`. -/
theorem dump_run_length {F : Type} (self : Popularity F) (path_base : String)
    (hne : self.freq_vec_ ≠ []) (hs : List.Sorted (fun a b => a ≥ b) self.freq_vec_)
    (hlen : self.freq_vec_.length < 2 ^ 32) :
    ∃ runs : List (Nat × Nat),
      Popularity.dump self path_base =
        some { log := [],
               file := some (path_base ++ ".popularity",
                 ["# " ++ path_base, "# freq (sorted):cnt - for Zipf plot"] ++
                   runs.map (fun p => toString p.1 ++ ":" ++ toString p.2)) } ∧
      List.Sorted (fun a b => a > b) (runs.map Prod.fst) ∧
      (∀ p ∈ runs, 1 ≤ p.2) ∧
      (runs.map Prod.snd).sum = self.freq_vec_.length ∧
      expand runs = self.freq_vec_ := by
  obtain ⟨a, t, hv⟩ := List.exists_cons_of_ne_nil hne
  rw [hv] at hs hlen
  simp only [List.length_cons] at hlen
  have hloop : Popularity.dump_loop (a :: t) a 0 = Popularity.dump_loop t a 1 := by
    simp only [Popularity.dump_loop, if_true]
    rfl
  obtain ⟨h1, h2, h3, h4⟩ := dump_loop_spec t a 1 (le_refl 1) (by omega) hs
  refine ⟨Popularity.dump_loop t a 1, ?_, h4, h3, ?_, ?_⟩
  · unfold Popularity.dump
    rw [hv]
    simp only [List.isEmpty_cons, List.getD_cons_zero, hloop]
    rfl
  · rw [h2, hv, List.length_cons]; omega
  · rw [h1, hv]; rfl

/-- Witness of `dump_run_length`: the vector `5, 5, 3, 1`. -/
theorem dump_run_length_witness :
    small_popularity.freq_vec_ ≠ [] ∧
    List.Sorted (fun a b => a ≥ b) small_popularity.freq_vec_ ∧
    small_popularity.freq_vec_.length < 2 ^ 32 ∧
    ∃ runs : List (Nat × Nat),
      Popularity.dump small_popularity "t" =
        some { log := [],
               file := some ("t" ++ ".popularity",
                 ["# " ++ "t", "# freq (sorted):cnt - for Zipf plot"] ++
                   runs.map (fun p => toString p.1 ++ ":" ++ toString p.2)) } ∧
      List.Sorted (fun a b => a > b) (runs.map Prod.fst) ∧
      (∀ p ∈ runs, 1 ≤ p.2) ∧
      (runs.map Prod.snd).sum = small_popularity.freq_vec_.length ∧
      expand runs = small_popularity.freq_vec_ :=
  ⟨by decide, by decide, by decide,
    dump_run_length small_popularity "t" (by decide) (by decide) (by decide)⟩

theorem double_sum_identity (n : ℕ) (f g : ℕ → ℝ) :
    ∑ i in Finset.range n, ∑ j in Finset.range n, (f i - f j) * (g i - g j) =
      2 * (n * ∑ i in Finset.range n, f i * g i - (∑ i in Finset.range n, f i) * ∑ i in Finset.range n, g i) := by
  have h1 : ∀ i j, (f i - f j) * (g i - g j) = f i * g i - f i * g j - f j * g i + f j * g j := by
    intro i j; ring
  simp only [h1, Finset.sum_add_distrib, Finset.sum_sub_distrib, Finset.sum_const,
    Finset.card_range, nsmul_eq_mul, ← Finset.mul_sum, ← Finset.sum_mul]
  ring

theorem double_sum_neg (n : ℕ) (f g : ℕ → ℝ) (hn : 2 ≤ n)
    (hf : ∀ i j, i ≤ j → f i ≤ f j) (hg : ∀ i j, i ≤ j → j < n → g j ≤ g i)
    (hf0 : f 0 < f (n - 1)) (hg0 : g (n - 1) < g 0) :
    ∑ i in Finset.range n, ∑ j in Finset.range n, (f i - f j) * (g i - g j) < 0 := by
  have hterm : ∀ i ∈ Finset.range n, ∀ j ∈ Finset.range n, (f i - f j) * (g i - g j) ≤ 0 := by
    intro i hi j hj
    rw [Finset.mem_range] at hi hj
    rcases le_total i j with hij | hij
    · exact mul_nonpos_of_nonpos_of_nonneg (sub_nonpos.2 (hf i j hij))
        (sub_nonneg.2 (hg i j hij hj))
    · exact mul_nonpos_of_nonneg_of_nonpos (sub_nonneg.2 (hf j i hij))
        (sub_nonpos.2 (hg j i hij hi))
  have h0 : (0 : ℝ) = ∑ i in Finset.range n, (0 : ℝ) := by simp
  rw [h0]
  apply Finset.sum_lt_sum
  · intro i hi
    exact Finset.sum_nonpos (hterm i hi)
  · refine ⟨0, Finset.mem_range.2 (by omega), ?_⟩
    have h0' : (0 : ℝ) = ∑ j in Finset.range n, (0 : ℝ) := by simp
    rw [h0']
    apply Finset.sum_lt_sum
    · exact hterm 0 (Finset.mem_range.2 (by omega))
    · exact ⟨n - 1, Finset.mem_range.2 (by omega),
        mul_neg_of_neg_of_pos (sub_neg.2 hf0) (sub_pos.2 hg0)⟩

theorem double_sum_sq_pos (n : ℕ) (f : ℕ → ℝ) (hn : 2 ≤ n) (hf0 : f 0 < f (n - 1)) :
    0 < ∑ i in Finset.range n, ∑ j in Finset.range n, (f i - f j) * (f i - f j) := by
  have h0 : (0 : ℝ) = ∑ i in Finset.range n, (0 : ℝ) := by simp
  rw [h0]
  apply Finset.sum_lt_sum
  · intro i _
    exact Finset.sum_nonneg (fun j _ => mul_self_nonneg _)
  · refine ⟨0, Finset.mem_range.2 (by omega), ?_⟩
    have h0' : (0 : ℝ) = ∑ j in Finset.range n, (0 : ℝ) := by simp
    rw [h0']
    apply Finset.sum_lt_sum
    · exact fun j _ => mul_self_nonneg _
    · exact ⟨n - 1, Finset.mem_range.2 (by omega), mul_self_pos.2 (sub_ne_zero.2 hf0.ne)⟩

theorem foldl_add_eq {F : Type} [Field F] (xs : List F) (init : F) :
    xs.foldl (fun acc v => acc + v) init = init + xs.sum := by
  induction xs generalizing init with
  | nil => simp
  | cons a t ih => simp [List.foldl_cons, ih, add_assoc]

theorem foldl_add_mul_eq {F : Type} [Field F] (ps : List (F × F)) (init : F) :
    ps.foldl (fun acc p => acc + p.1 * p.2) init = init + (ps.map (fun p => p.1 * p.2)).sum := by
  induction ps generalizing init with
  | nil => simp
  | cons a t ih => simp [List.foldl_cons, ih, add_assoc]

theorem sum_map_range {F : Type} [Field F] (h : ℕ → F) (n : ℕ) :
    ((List.range n).map h).sum = ∑ i in Finset.range n, h i := by
  induction n with
  | zero => simp
  | succ k ih => simp [List.range_succ, Finset.sum_range_succ, ih]

namespace PopularityUtils

theorem accumulate_eq_sum {F : Type} [Field F] (xs : List F) : accumulate xs 0 = xs.sum := by
  unfold accumulate
  rw [foldl_add_eq, zero_add]

theorem inner_product_eq_sum {F : Type} [Field F] (xs ys : List F) :
    inner_product xs ys 0 = ((List.zip xs ys).map (fun p => p.1 * p.2)).sum := by
  unfold inner_product
  rw [foldl_add_mul_eq, zero_add]

theorem accumulate_map_range {F : Type} [Field F] (f : ℕ → F) (n : ℕ) :
    accumulate ((List.range n).map f) 0 = ∑ i in Finset.range n, f i := by
  rw [accumulate_eq_sum, sum_map_range]

theorem inner_product_map_range {F : Type} [Field F] (f g : ℕ → F) (n : ℕ) :
    inner_product ((List.range n).map f) ((List.range n).map g) 0 =
      ∑ i in Finset.range n, f i * g i := by
  rw [inner_product_eq_sum, List.zip_map', List.map_map, sum_map_range]
  rfl

/-- On two vectors strictly and weakly ordered in opposite directions, the
divisor of `slope` is positive and its dividend negative. -/
theorem slope_terms_of_antivary (n : ℕ) (f g : ℕ → ℝ) (hn : 2 ≤ n)
    (hf : ∀ i j, i ≤ j → f i ≤ f j) (hg : ∀ i j, i ≤ j → j < n → g j ≤ g i)
    (hf0 : f 0 < f (n - 1)) (hg0 : g (n - 1) < g 0) :
    0 < (((List.range n).map f).length : ℝ) *
          inner_product ((List.range n).map f) ((List.range n).map f) 0 -
        accumulate ((List.range n).map f) 0 * accumulate ((List.range n).map f) 0 ∧
    (((List.range n).map f).length : ℝ) *
          inner_product ((List.range n).map f) ((List.range n).map g) 0 -
        accumulate ((List.range n).map f) 0 * accumulate ((List.range n).map g) 0 < 0 := by
  simp only [List.length_map, List.length_range, accumulate_map_range, inner_product_map_range]
  have hd := double_sum_sq_pos n f hn hf0
  have hnum := double_sum_neg n f g hn hf hg hf0 hg0
  rw [double_sum_identity] at hd hnum
  constructor
  · linarith
  · linarith

end PopularityUtils

/-- In a vector in non-increasing order whose entries are not all equal, the
last entry is below the first. -/
theorem last_lt_head_of_sorted {v : List Nat} (hs : List.Sorted (fun a b => a ≥ b) v)
    {a b : Nat} (ha : a ∈ v) (hb : b ∈ v) (hab : a ≠ b) :
    v.getD (v.length - 1) 0 < v.getD 0 0 := by
  by_contra hcon
  have hle : v.getD 0 0 ≤ v.getD (v.length - 1) 0 := not_lt.1 hcon
  have hall : ∀ c ∈ v, c = v.getD 0 0 := by
    intro c hc
    obtain ⟨i, hi, rfl⟩ := List.getElem_of_mem hc
    rw [← List.getD_eq_getElem v 0 hi]
    have h1 : v.getD i 0 ≤ v.getD 0 0 := getD_antitone_of_sorted hs (Nat.zero_le i) hi
    have h2 : v.getD (v.length - 1) 0 ≤ v.getD i 0 :=
      getD_antitone_of_sorted hs (by omega) (by omega)
    omega
  exact hab ((hall a ha).trans (hall b hb).symm)

/-- The fit of `run` on a map of at least 200 objects whose frequencies are at
least 1 and not all equal, doubles read as reals: the divisor of `slope` is
positive and the slope of log-frequency against log-rank is negative. -/
theorem slope_fit_neg (obj_map : obj_info_map_type) (h : 200 ≤ obj_map.length)
    (hpos : ∀ p ∈ obj_map, 1 ≤ p.2.freq)
    (hne : ∃ p ∈ obj_map, ∃ q ∈ obj_map, p.2.freq ≠ q.2.freq) :
    0 < ((Popularity.log_rank (fun n => Real.log n) obj_map.length).length : ℝ) *
          PopularityUtils.inner_product (Popularity.log_rank (fun n => Real.log n) obj_map.length)
            (Popularity.log_rank (fun n => Real.log n) obj_map.length) 0 -
        PopularityUtils.accumulate (Popularity.log_rank (fun n => Real.log n) obj_map.length) 0 *
          PopularityUtils.accumulate
            (Popularity.log_rank (fun n => Real.log n) obj_map.length) 0 ∧
    PopularityUtils.slope (Popularity.log_rank (fun n => Real.log n) obj_map.length)
      (Popularity.log_freq (fun n => Real.log n) (sort_greater (freqs obj_map))
        obj_map.length) < 0 := by
  have hlen : (sort_greater (freqs obj_map)).length = obj_map.length := by
    rw [length_sort_greater]; simp [freqs]
  have hsorted := sorted_sort_greater (freqs obj_map)
  have hge1 : ∀ i, i < obj_map.length → 1 ≤ (sort_greater (freqs obj_map)).getD i 0 := by
    intro i hi
    rw [List.getD_eq_getElem _ 0 (hlen ▸ hi)]
    have hmem : (sort_greater (freqs obj_map))[i] ∈ freqs obj_map :=
      (perm_sort_greater _).mem_iff.1 (List.getElem_mem _)
    obtain ⟨p, hp, hpf⟩ := mem_freqs.1 hmem
    rw [← hpf]
    exact hpos p hp
  obtain ⟨p, hp, q, hq, hpq⟩ := hne
  have hlast := last_lt_head_of_sorted hsorted
    ((perm_sort_greater _).mem_iff.2 (mem_freqs.2 ⟨p, hp, rfl⟩))
    ((perm_sort_greater _).mem_iff.2 (mem_freqs.2 ⟨q, hq, rfl⟩)) hpq
  rw [hlen] at hlast
  have hterms := PopularityUtils.slope_terms_of_antivary obj_map.length
    (fun i => Real.log ((i + 1 : ℕ) : ℝ))
    (fun i => Real.log (((sort_greater (freqs obj_map)).getD i 0 : ℕ) : ℝ)) (by omega)
    (fun i j hij => Real.log_le_log (by positivity) (by exact_mod_cast Nat.succ_le_succ hij))
    (fun i j hij hj => Real.log_le_log
      (by exact_mod_cast hge1 j hj)
      (by exact_mod_cast getD_antitone_of_sorted hsorted hij (hlen ▸ hj)))
    (Real.log_lt_log (by norm_num) (by
      have : 1 < obj_map.length - 1 + 1 := by omega
      exact_mod_cast this))
    (Real.log_lt_log (by exact_mod_cast hge1 _ (by omega)) (by exact_mod_cast hlast))
  refine ⟨hterms.1, ?_⟩
  unfold PopularityUtils.slope
  exact div_neg_of_neg_of_pos hterms.2 hterms.1

set_option maxRecDepth 100000 in
theorem scenario_200_pos : ∀ p ∈ scenario 200, 1 ≤ p.2.freq := by
  decide

theorem scenario_200_not_all_equal :
    ∃ p ∈ scenario 200, ∃ q ∈ scenario 200, p.2.freq ≠ q.2.freq :=
  ⟨(0, { freq := 5 }), List.mem_map.2 ⟨0, List.mem_range.2 (by decide), rfl⟩,
    (5, { freq := 1 }), List.mem_map.2 ⟨5, List.mem_range.2 (by decide), rfl⟩, by decide⟩

/-- C6 (as stated) fails on the spec's own scenario: over the 200 objects with
frequencies `5, 5, 5, 3, 3, 1` repeated (all at least 1, not all equal), the
value `Popularity(obj_map)` stores in `slope_` is positive, not negative. -/
theorem popularity_scenario_slope_positive :
    200 ≤ (scenario 200).length ∧ (∀ p ∈ scenario 200, 1 ≤ p.2.freq) ∧
    (∃ p ∈ scenario 200, ∃ q ∈ scenario 200, p.2.freq ≠ q.2.freq) ∧
    ∃ a : ℝ, (Popularity.ctor (fun n => Real.log n) (scenario 200)).obj.slope_ = some a ∧
      0 < a := by
  have hlen : 200 ≤ (scenario 200).length := by rw [length_scenario]
  refine ⟨hlen, scenario_200_pos, scenario_200_not_all_equal,
    -PopularityUtils.slope (Popularity.log_rank (fun n => Real.log n) (scenario 200).length)
      (Popularity.log_freq (fun n => Real.log n) (sort_greater (freqs (scenario 200)))
        (scenario 200).length), ?_, ?_⟩
  · rw [Popularity.ctor_fit _ _ hlen]
  · exact neg_pos.2 (slope_fit_neg _ hlen scenario_200_pos scenario_200_not_all_equal).2

/-- C6 (as amended): for every map of at least 200 objects whose frequencies
are all at least 1 and not all equal, doubles being read as exact reals, the
divisor in `PopularityUtils::slope` is positive, so the slope of the fit of
log-frequency against log-rank is finite, and that slope is negative; `run`
stores its negation in `slope_`, so the stored value, the one the summary
prints, is finite and positive. -/
theorem popularity_slope_sign (obj_map : obj_info_map_type) (h : 200 ≤ obj_map.length)
    (hpos : ∀ p ∈ obj_map, 1 ≤ p.2.freq)
    (hne : ∃ p ∈ obj_map, ∃ q ∈ obj_map, p.2.freq ≠ q.2.freq) :
    0 < ((Popularity.log_rank (fun n => Real.log n) obj_map.length).length : ℝ) *
          PopularityUtils.inner_product (Popularity.log_rank (fun n => Real.log n) obj_map.length)
            (Popularity.log_rank (fun n => Real.log n) obj_map.length) 0 -
        PopularityUtils.accumulate (Popularity.log_rank (fun n => Real.log n) obj_map.length) 0 *
          PopularityUtils.accumulate
            (Popularity.log_rank (fun n => Real.log n) obj_map.length) 0 ∧
    PopularityUtils.slope (Popularity.log_rank (fun n => Real.log n) obj_map.length)
      (Popularity.log_freq (fun n => Real.log n)
        (Popularity.ctor (fun n => Real.log n) obj_map).obj.freq_vec_ obj_map.length) < 0 ∧
    (Popularity.ctor (fun n => Real.log n) obj_map).obj.slope_ =
      some (-PopularityUtils.slope (Popularity.log_rank (fun n => Real.log n) obj_map.length)
        (Popularity.log_freq (fun n => Real.log n)
          (Popularity.ctor (fun n => Real.log n) obj_map).obj.freq_vec_ obj_map.length)) ∧
    0 < -PopularityUtils.slope (Popularity.log_rank (fun n => Real.log n) obj_map.length)
      (Popularity.log_freq (fun n => Real.log n)
        (Popularity.ctor (fun n => Real.log n) obj_map).obj.freq_vec_ obj_map.length) := by
  obtain ⟨hden, hslope⟩ := slope_fit_neg obj_map h hpos hne
  rw [Popularity.ctor_freq_vec]
  refine ⟨hden, hslope, ?_, neg_pos.2 hslope⟩
  rw [Popularity.ctor_fit _ _ h]

/-- Witness of `popularity_slope_sign`: the spec's scenario over 200
objects. -/
theorem popularity_slope_sign_witness :
    200 ≤ (scenario 200).length ∧ (∀ p ∈ scenario 200, 1 ≤ p.2.freq) ∧
    (∃ p ∈ scenario 200, ∃ q ∈ scenario 200, p.2.freq ≠ q.2.freq) ∧
    PopularityUtils.slope (Popularity.log_rank (fun n => Real.log n) (scenario 200).length)
      (Popularity.log_freq (fun n => Real.log n)
        (Popularity.ctor (fun n => Real.log n) (scenario 200)).obj.freq_vec_
        (scenario 200).length) < 0 :=
  ⟨by rw [length_scenario], scenario_200_pos, scenario_200_not_all_equal,
    (popularity_slope_sign (scenario 200) (by rw [length_scenario]) scenario_200_pos
      scenario_200_not_all_equal).2.1⟩

theorem ols_gap (n Sx Sy Sxx Sxy Syy a b : ℝ) (hn : 0 < n) (hD : 0 < n * Sxx - Sx * Sx) :
    (Syy - 2 * a * Sxy - 2 * b * Sy + a ^ 2 * Sxx + 2 * a * b * Sx + n * b ^ 2) -
      (Syy - 2 * ((n * Sxy - Sx * Sy) / (n * Sxx - Sx * Sx)) * Sxy -
        2 * (Sy / n - (n * Sxy - Sx * Sy) / (n * Sxx - Sx * Sx) * (Sx / n)) * Sy +
        ((n * Sxy - Sx * Sy) / (n * Sxx - Sx * Sx)) ^ 2 * Sxx +
        2 * ((n * Sxy - Sx * Sy) / (n * Sxx - Sx * Sx)) *
          (Sy / n - (n * Sxy - Sx * Sy) / (n * Sxx - Sx * Sx) * (Sx / n)) * Sx +
        n * (Sy / n - (n * Sxy - Sx * Sy) / (n * Sxx - Sx * Sx) * (Sx / n)) ^ 2) =
    ((n * (b - (Sy / n - (n * Sxy - Sx * Sy) / (n * Sxx - Sx * Sx) * (Sx / n))) +
        Sx * (a - (n * Sxy - Sx * Sy) / (n * Sxx - Sx * Sx))) ^ 2 +
      (n * Sxx - Sx * Sx) * (a - (n * Sxy - Sx * Sy) / (n * Sxx - Sx * Sx)) ^ 2) / n := by
  have hn' : n ≠ 0 := hn.ne'
  have hD' : n * Sxx - Sx * Sx ≠ 0 := hD.ne'
  field_simp
  ring

theorem sum_sq_expand (n : ℕ) (f g : ℕ → ℝ) (a b : ℝ) :
    ∑ i in Finset.range n, (g i - a * f i - b) ^ 2 =
      (∑ i in Finset.range n, g i * g i) - 2 * a * (∑ i in Finset.range n, f i * g i) -
        2 * b * (∑ i in Finset.range n, g i) + a ^ 2 * (∑ i in Finset.range n, f i * f i) +
        2 * a * b * (∑ i in Finset.range n, f i) + n * b ^ 2 := by
  have h : ∀ i, (g i - a * f i - b) ^ 2 =
      g i * g i - 2 * a * (f i * g i) - 2 * b * g i + a ^ 2 * (f i * f i) +
        2 * a * b * f i + b ^ 2 := by
    intro i; ring
  simp only [h, Finset.sum_add_distrib, Finset.sum_sub_distrib, ← Finset.mul_sum,
    Finset.sum_const, Finset.card_range, nsmul_eq_mul]

theorem sum_centered_mul (n : ℕ) (f g : ℕ → ℝ) (hn : 0 < n) :
    ∑ i in Finset.range n, (f i - (∑ j in Finset.range n, f j) / n) *
        (g i - (∑ j in Finset.range n, g j) / n) =
      (∑ i in Finset.range n, f i * g i) -
        (∑ i in Finset.range n, f i) * (∑ i in Finset.range n, g i) / n := by
  have hn' : (n : ℝ) ≠ 0 := by exact_mod_cast hn.ne'
  have h : ∀ (u v : ℝ) (i : ℕ), (f i - u) * (g i - v) = f i * g i - v * f i - u * g i + u * v := by
    intro u v i; ring
  simp only [h, Finset.sum_add_distrib, Finset.sum_sub_distrib, ← Finset.mul_sum,
    Finset.sum_const, Finset.card_range, nsmul_eq_mul]
  field_simp
  ring

theorem double_sum_sq_pos_of_ne (n : ℕ) (f : ℕ → ℝ) {i j : ℕ} (hi : i < n) (hj : j < n)
    (hne : f i ≠ f j) :
    0 < ∑ i in Finset.range n, ∑ j in Finset.range n, (f i - f j) * (f i - f j) := by
  have h0 : (0 : ℝ) = ∑ i in Finset.range n, (0 : ℝ) := by simp
  rw [h0]
  apply Finset.sum_lt_sum
  · intro i _
    exact Finset.sum_nonneg (fun j _ => mul_self_nonneg _)
  · refine ⟨i, Finset.mem_range.2 hi, ?_⟩
    have h0' : (0 : ℝ) = ∑ j in Finset.range n, (0 : ℝ) := by simp
    rw [h0']
    apply Finset.sum_lt_sum
    · exact fun j _ => mul_self_nonneg _
    · exact ⟨j, Finset.mem_range.2 hj, mul_self_pos.2 (sub_ne_zero.2 hne)⟩

/-- The divisor of the slope is positive when the abscissae are not all
equal. -/
theorem divisor_pos_of_ne (n : ℕ) (f : ℕ → ℝ) {i j : ℕ} (hi : i < n) (hj : j < n)
    (hne : f i ≠ f j) :
    0 < (n : ℝ) * (∑ i in Finset.range n, f i * f i) -
      (∑ i in Finset.range n, f i) * (∑ i in Finset.range n, f i) := by
  have h := double_sum_sq_pos_of_ne n f hi hj hne
  rw [double_sum_identity] at h
  linarith

theorem eq_map_range_getD (x : List ℝ) :
    (List.range x.length).map (fun i => x.getD i 0) = x := by
  apply List.ext_getElem
  · simp
  · intro i h1 h2
    rw [List.getElem_map, List.getElem_range]
    exact List.getD_eq_getElem x 0 h2

theorem zipWith_map_map {α β γ δ : Type} (h : β → γ → δ) (f : α → β) (g : α → γ) (l : List α) :
    List.zipWith h (l.map f) (l.map g) = l.map (fun i => h (f i) (g i)) := by
  induction l with
  | nil => rfl
  | cons a t ih => simp [ih]

theorem slope_map_range (n : ℕ) (f g : ℕ → ℝ) :
    PopularityUtils.slope ((List.range n).map f) ((List.range n).map g) =
      ((n : ℝ) * (∑ i in Finset.range n, f i * g i) -
          (∑ i in Finset.range n, f i) * (∑ i in Finset.range n, g i)) /
        ((n : ℝ) * (∑ i in Finset.range n, f i * f i) -
          (∑ i in Finset.range n, f i) * (∑ i in Finset.range n, f i)) := by
  unfold PopularityUtils.slope
  simp only [List.length_map, List.length_range, PopularityUtils.accumulate_map_range,
    PopularityUtils.inner_product_map_range]

theorem ols_slope_map_range (n : ℕ) (f g : ℕ → ℝ) :
    ols_slope ((List.range n).map f) ((List.range n).map g) =
      ((n : ℝ) * (∑ i in Finset.range n, f i * g i) -
          (∑ i in Finset.range n, f i) * (∑ i in Finset.range n, g i)) /
        ((n : ℝ) * (∑ i in Finset.range n, f i * f i) -
          (∑ i in Finset.range n, f i) * (∑ i in Finset.range n, f i)) := by
  unfold ols_slope
  simp only [List.length_map, List.length_range, zipWith_map_map, List.map_map, sum_map_range,
    Function.comp_def, pow_two]

theorem mean_map_range (n : ℕ) (f : ℕ → ℝ) :
    mean ((List.range n).map f) = (∑ i in Finset.range n, f i) / n := by
  unfold mean
  simp only [List.length_map, List.length_range, sum_map_range]

theorem centered_slope_map_range (n : ℕ) (f g : ℕ → ℝ) (hn : 0 < n) :
    centered_slope ((List.range n).map f) ((List.range n).map g) =
      ((∑ i in Finset.range n, f i * g i) -
          (∑ i in Finset.range n, f i) * (∑ i in Finset.range n, g i) / n) /
        ((∑ i in Finset.range n, f i * f i) -
          (∑ i in Finset.range n, f i) * (∑ i in Finset.range n, f i) / n) := by
  unfold centered_slope
  simp only [zipWith_map_map, List.map_map, sum_map_range, Function.comp_def, pow_two,
    mean_map_range, sum_centered_mul n f g hn, sum_centered_mul n f f hn]

theorem squared_error_map_range (n : ℕ) (f g : ℕ → ℝ) (a b : ℝ) :
    squared_error ((List.range n).map f) ((List.range n).map g) a b =
      (∑ i in Finset.range n, g i * g i) - 2 * a * (∑ i in Finset.range n, f i * g i) -
        2 * b * (∑ i in Finset.range n, g i) + a ^ 2 * (∑ i in Finset.range n, f i * f i) +
        2 * a * b * (∑ i in Finset.range n, f i) + n * b ^ 2 := by
  unfold squared_error
  rw [zipWith_map_map, sum_map_range, sum_sq_expand]

/-- The least-squares statements for two vectors given by their entries. -/
theorem ols_map_range (n : ℕ) (f g : ℕ → ℝ) {i j : ℕ} (hi : i < n) (hj : j < n)
    (hne : f i ≠ f j) :
    PopularityUtils.slope ((List.range n).map f) ((List.range n).map g) =
      ols_slope ((List.range n).map f) ((List.range n).map g) ∧
    ols_slope ((List.range n).map f) ((List.range n).map g) =
      centered_slope ((List.range n).map f) ((List.range n).map g) ∧
    ∀ a b : ℝ,
      squared_error ((List.range n).map f) ((List.range n).map g)
          (PopularityUtils.slope ((List.range n).map f) ((List.range n).map g))
          (mean ((List.range n).map g) -
            PopularityUtils.slope ((List.range n).map f) ((List.range n).map g) *
              mean ((List.range n).map f)) ≤
        squared_error ((List.range n).map f) ((List.range n).map g) a b ∧
      (squared_error ((List.range n).map f) ((List.range n).map g) a b =
          squared_error ((List.range n).map f) ((List.range n).map g)
            (PopularityUtils.slope ((List.range n).map f) ((List.range n).map g))
            (mean ((List.range n).map g) -
              PopularityUtils.slope ((List.range n).map f) ((List.range n).map g) *
                mean ((List.range n).map f)) →
        a = PopularityUtils.slope ((List.range n).map f) ((List.range n).map g)) := by
  have hn : 0 < n := lt_of_le_of_lt (Nat.zero_le i) hi
  have hnR : (0 : ℝ) < n := by exact_mod_cast hn
  have hD := divisor_pos_of_ne n f hi hj hne
  refine ⟨?_, ?_, ?_⟩
  · rw [slope_map_range, ols_slope_map_range]
  · rw [ols_slope_map_range, centered_slope_map_range n f g hn]
    have hn' := hnR.ne'
    have hnum : (∑ i in Finset.range n, f i * g i) -
        (∑ i in Finset.range n, f i) * (∑ i in Finset.range n, g i) / n =
        ((n : ℝ) * (∑ i in Finset.range n, f i * g i) -
          (∑ i in Finset.range n, f i) * (∑ i in Finset.range n, g i)) / n := by
      field_simp
      ring
    have hden : (∑ i in Finset.range n, f i * f i) -
        (∑ i in Finset.range n, f i) * (∑ i in Finset.range n, f i) / n =
        ((n : ℝ) * (∑ i in Finset.range n, f i * f i) -
          (∑ i in Finset.range n, f i) * (∑ i in Finset.range n, f i)) / n := by
      field_simp
      ring
    rw [hnum, hden, div_div_div_cancel_right₀ hn']
  · intro a b
    have hgap := ols_gap n (∑ i in Finset.range n, f i) (∑ i in Finset.range n, g i)
      (∑ i in Finset.range n, f i * f i) (∑ i in Finset.range n, f i * g i)
      (∑ i in Finset.range n, g i * g i) a b hnR hD
    rw [squared_error_map_range, squared_error_map_range, mean_map_range, mean_map_range,
      slope_map_range]
    have hsq1 := sq_nonneg ((n : ℝ) * (b - ((∑ i in Finset.range n, g i) / n -
      ((n : ℝ) * (∑ i in Finset.range n, f i * g i) -
          (∑ i in Finset.range n, f i) * (∑ i in Finset.range n, g i)) /
        ((n : ℝ) * (∑ i in Finset.range n, f i * f i) -
          (∑ i in Finset.range n, f i) * (∑ i in Finset.range n, f i)) *
        ((∑ i in Finset.range n, f i) / n))) +
      (∑ i in Finset.range n, f i) * (a - ((n : ℝ) * (∑ i in Finset.range n, f i * g i) -
          (∑ i in Finset.range n, f i) * (∑ i in Finset.range n, g i)) /
        ((n : ℝ) * (∑ i in Finset.range n, f i * f i) -
          (∑ i in Finset.range n, f i) * (∑ i in Finset.range n, f i))))
    have hsq2 := sq_nonneg (a - ((n : ℝ) * (∑ i in Finset.range n, f i * g i) -
          (∑ i in Finset.range n, f i) * (∑ i in Finset.range n, g i)) /
        ((n : ℝ) * (∑ i in Finset.range n, f i * f i) -
          (∑ i in Finset.range n, f i) * (∑ i in Finset.range n, f i)))
    constructor
    · have hnonneg := div_nonneg (add_nonneg hsq1 (mul_nonneg hD.le hsq2)) hnR.le
      rw [← hgap] at hnonneg
      linarith
    · intro heq
      have hzero : ((n : ℝ) * (b - ((∑ i in Finset.range n, g i) / n -
          ((n : ℝ) * (∑ i in Finset.range n, f i * g i) -
              (∑ i in Finset.range n, f i) * (∑ i in Finset.range n, g i)) /
            ((n : ℝ) * (∑ i in Finset.range n, f i * f i) -
              (∑ i in Finset.range n, f i) * (∑ i in Finset.range n, f i)) *
            ((∑ i in Finset.range n, f i) / n))) +
          (∑ i in Finset.range n, f i) * (a - ((n : ℝ) * (∑ i in Finset.range n, f i * g i) -
              (∑ i in Finset.range n, f i) * (∑ i in Finset.range n, g i)) /
            ((n : ℝ) * (∑ i in Finset.range n, f i * f i) -
              (∑ i in Finset.range n, f i) * (∑ i in Finset.range n, f i)))) ^ 2 +
          ((n : ℝ) * (∑ i in Finset.range n, f i * f i) -
              (∑ i in Finset.range n, f i) * (∑ i in Finset.range n, f i)) *
            (a - ((n : ℝ) * (∑ i in Finset.range n, f i * g i) -
              (∑ i in Finset.range n, f i) * (∑ i in Finset.range n, g i)) /
            ((n : ℝ) * (∑ i in Finset.range n, f i * f i) -
              (∑ i in Finset.range n, f i) * (∑ i in Finset.range n, f i))) ^ 2 = 0 := by
        have h1 := hgap
        rw [heq, sub_self] at h1
        have h2 := h1.symm
        rw [div_eq_zero_iff] at h2
        rcases h2 with h2 | h2
        · exact h2
        · exact absurd h2 hnR.ne'
      have hprod : ((n : ℝ) * (∑ i in Finset.range n, f i * f i) -
              (∑ i in Finset.range n, f i) * (∑ i in Finset.range n, f i)) *
            (a - ((n : ℝ) * (∑ i in Finset.range n, f i * g i) -
              (∑ i in Finset.range n, f i) * (∑ i in Finset.range n, g i)) /
            ((n : ℝ) * (∑ i in Finset.range n, f i * f i) -
              (∑ i in Finset.range n, f i) * (∑ i in Finset.range n, f i))) ^ 2 = 0 := by
        have hp := mul_nonneg hD.le hsq2
        linarith
      rcases mul_eq_zero.1 hprod with h3 | h3
      · exact absurd h3 hD.ne'
      · exact sub_eq_zero.1 (pow_eq_zero_iff (by decide) |>.1 h3)

theorem length_ctor_freq_vec {F : Type} [Field F] (log : Nat → F)
    (obj_map : obj_info_map_type) :
    (Popularity.ctor log obj_map).obj.freq_vec_.length = obj_map.length := by
  rw [Popularity.ctor_freq_vec, length_sort_greater]
  simp [freqs]

theorem log_rank_getElem? {F : Type} [Field F] (log : Nat → F) (n i : Nat) (hi : i < n) :
    (Popularity.log_rank log n)[i]? = some (log (i + 1)) := by
  unfold Popularity.log_rank
  rw [List.getElem?_map, List.getElem?_range hi]
  rfl

theorem log_freq_getElem? {F : Type} [Field F] (log : Nat → F) (v : List Nat) (n i : Nat)
    (hi : i < n) (hv : i < v.length) :
    (Popularity.log_freq log v n)[i]? = some (log v[i]) := by
  unfold Popularity.log_freq
  rw [List.getElem?_map, List.getElem?_range hi, ← List.getD_eq_getElem v 0 hv]
  rfl

/-- C11: `PopularityUtils::slope` is the ordinary least-squares slope.  For
real vectors `x`, `y` of equal length with `x` not constant (so of length at
least 2), `slope x y` is the sums formula, which equals the centred formula,
and it is the slope of the least-squares line: the line with slope `slope x y`
and intercept `mean y - slope x y * mean x` has the least sum of squared
residuals among all lines, and every line with as small a sum has that slope.
For a map of at least 200 objects `run` applies `slope` (storing its negation)
to the vectors whose entry for rank `k = 1 .. n` is `log k` and
`log (freq_vec_[k - 1])`. -/
theorem slope_is_least_squares (x y : List ℝ) (hlen : x.length = y.length)
    (hnc : ∃ u ∈ x, ∃ v ∈ x, u ≠ v)
    (obj_map : obj_info_map_type) (h200 : 200 ≤ obj_map.length) :
    (PopularityUtils.slope x y = ols_slope x y ∧
      ols_slope x y = centered_slope x y ∧
      ∀ a b : ℝ,
        squared_error x y (PopularityUtils.slope x y)
            (mean y - PopularityUtils.slope x y * mean x) ≤ squared_error x y a b ∧
        (squared_error x y a b =
            squared_error x y (PopularityUtils.slope x y)
              (mean y - PopularityUtils.slope x y * mean x) →
          a = PopularityUtils.slope x y)) ∧
    ((Popularity.ctor (fun n => Real.log n) obj_map).obj.slope_ =
        some (-PopularityUtils.slope
          (Popularity.log_rank (fun n => Real.log n) obj_map.length)
          (Popularity.log_freq (fun n => Real.log n)
            (Popularity.ctor (fun n => Real.log n) obj_map).obj.freq_vec_ obj_map.length)) ∧
      (Popularity.log_rank (fun n => Real.log n) obj_map.length).length = obj_map.length ∧
      (Popularity.log_freq (fun n => Real.log n)
        (Popularity.ctor (fun n => Real.log n) obj_map).obj.freq_vec_
        obj_map.length).length = obj_map.length ∧
      ∀ k : Nat, 1 ≤ k → k ≤ obj_map.length →
        (Popularity.log_rank (fun n => Real.log n) obj_map.length)[k - 1]? =
          some (Real.log k) ∧
        ∃ f : Nat, (Popularity.ctor (fun n => Real.log n) obj_map).obj.freq_vec_[k - 1]? =
            some f ∧
          (Popularity.log_freq (fun n => Real.log n)
            (Popularity.ctor (fun n => Real.log n) obj_map).obj.freq_vec_
            obj_map.length)[k - 1]? = some (Real.log f)) := by
  constructor
  · obtain ⟨u, hu, v, hv, huv⟩ := hnc
    obtain ⟨i, hi, rfl⟩ := List.getElem_of_mem hu
    obtain ⟨j, hj, rfl⟩ := List.getElem_of_mem hv
    have hne : (fun i => x.getD i 0) i ≠ (fun i => x.getD i 0) j := by
      show x.getD i 0 ≠ x.getD j 0
      rw [List.getD_eq_getElem x 0 hi, List.getD_eq_getElem x 0 hj]
      exact huv
    have h := ols_map_range x.length (fun i => x.getD i 0) (fun i => y.getD i 0) hi hj hne
    have hy : (List.range x.length).map (fun i => y.getD i 0) = y := by
      rw [hlen]; exact eq_map_range_getD y
    rw [eq_map_range_getD x, hy] at h
    exact h
  · have hlenv := length_ctor_freq_vec (fun n => Real.log n) obj_map
    refine ⟨?_, ?_, ?_, ?_⟩
    · rw [Popularity.ctor_fit _ _ h200]
    · simp [Popularity.log_rank]
    · simp [Popularity.log_freq]
    · intro k hk1 hkn
      have hi : k - 1 < obj_map.length := by omega
      have hcast : ((k - 1 + 1 : ℕ) : ℝ) = (k : ℝ) := by
        have : k - 1 + 1 = k := by omega
        rw [this]
      refine ⟨?_, ?_⟩
      · rw [log_rank_getElem? _ _ _ hi]
        show some (Real.log ((k - 1 + 1 : ℕ) : ℝ)) = some (Real.log k)
        rw [hcast]
      · have hv : k - 1 < (Popularity.ctor (fun n => Real.log n) obj_map).obj.freq_vec_.length := by
          rw [hlenv]; exact hi
        exact ⟨_, List.getElem?_eq_getElem hv, log_freq_getElem? _ _ _ _ hi hv⟩

/-- Witness of `slope_is_least_squares`: the vectors `0, 1` and `1, 3`, and the
spec's scenario over 200 objects. -/
theorem slope_is_least_squares_witness :
    ([0, 1] : List ℝ).length = ([1, 3] : List ℝ).length ∧
    (∃ u ∈ ([0, 1] : List ℝ), ∃ v ∈ ([0, 1] : List ℝ), u ≠ v) ∧
    200 ≤ (scenario 200).length ∧
    PopularityUtils.slope ([0, 1] : List ℝ) [1, 3] = ols_slope [0, 1] [1, 3] ∧
    ols_slope ([0, 1] : List ℝ) [1, 3] = centered_slope [0, 1] [1, 3] :=
  ⟨rfl, ⟨0, by simp, 1, by simp, by norm_num⟩, by rw [length_scenario],
    (slope_is_least_squares [0, 1] [1, 3] rfl ⟨0, by simp, 1, by simp, by norm_num⟩
      (scenario 200) (by rw [length_scenario])).1.1,
    (slope_is_least_squares [0, 1] [1, 3] rfl ⟨0, by simp, 1, by simp, by norm_num⟩
      (scenario 200) (by rw [length_scenario])).1.2.1⟩

theorem sort_greater_eq_of_perm {u v : List Nat} (h : u.Perm v) :
    sort_greater u = sort_greater v := by
  have hanti : IsAntisymm Nat (fun a b => a ≥ b) := ⟨fun a b h1 h2 => le_antisymm h2 h1⟩
  exact List.eq_of_perm_of_sorted
    (((perm_sort_greater u).trans h).trans (perm_sort_greater v).symm)
    (sorted_sort_greater u) (sorted_sort_greater v)

theorem length_freqs (obj_map : obj_info_map_type) : (freqs obj_map).length = obj_map.length := by
  simp [freqs]

/-- The constructor's result is the same for two maps whose frequencies are a
permutation of one another. -/
theorem ctor_eq_of_perm {F : Type} [Field F] (log : Nat → F) (m1 m2 : obj_info_map_type)
    (h : (freqs m1).Perm (freqs m2)) : Popularity.ctor log m1 = Popularity.ctor log m2 := by
  have hsort := sort_greater_eq_of_perm h
  have hlen : m1.length = m2.length := by
    rw [← length_freqs m1, ← length_freqs m2]; exact h.length_eq
  by_cases hc : m1.length < 200
  · rw [Popularity.ctor_too_few log m1 hc, Popularity.ctor_too_few log m2 (hlen ▸ hc), hsort,
      hlen]
  · have h1 : 200 ≤ m1.length := not_lt.1 hc
    rw [Popularity.ctor_fit log m1 h1, Popularity.ctor_fit log m2 (hlen ▸ h1), hsort, hlen]

/-- C12: the result of `Popularity(obj_map)` depends only on the multiset of
the map's frequencies, not on the identifiers or on the order of iteration:
two maps with the same multiset of frequencies give the same `freq_vec_`, the
same `fit_fail_reason_`, the same `has_run`, the same `slope_`, the same
logged lines and, for the same `path_base`, the same dump. -/
theorem popularity_depends_on_multiset {F : Type} [Field F] (log : Nat → F)
    (m1 m2 : obj_info_map_type)
    (h : (↑(freqs m1) : Multiset Nat) = (↑(freqs m2) : Multiset Nat)) :
    (Popularity.ctor log m1).obj.freq_vec_ = (Popularity.ctor log m2).obj.freq_vec_ ∧
    (Popularity.ctor log m1).obj.fit_fail_reason_ =
      (Popularity.ctor log m2).obj.fit_fail_reason_ ∧
    (Popularity.ctor log m1).obj.has_run = (Popularity.ctor log m2).obj.has_run ∧
    (Popularity.ctor log m1).obj.slope_ = (Popularity.ctor log m2).obj.slope_ ∧
    (Popularity.ctor log m1).log = (Popularity.ctor log m2).log ∧
    ∀ path_base : String,
      Popularity.dump (Popularity.ctor log m1).obj path_base =
        Popularity.dump (Popularity.ctor log m2).obj path_base := by
  have heq := ctor_eq_of_perm log m1 m2 (Multiset.coe_eq_coe.1 h)
  rw [heq]
  exact ⟨rfl, rfl, rfl, rfl, rfl, fun _ => rfl⟩

/-- Witness of `popularity_depends_on_multiset`: the frequencies 3 and 5 under
the identifiers 1, 2 and, in the other order, under 7, 9. -/
theorem popularity_depends_on_multiset_witness :
    (↑(freqs two_objects) : Multiset Nat) = (↑(freqs two_objects_renamed) : Multiset Nat) ∧
    (Popularity.ctor (fun n => Real.log n) two_objects).obj.freq_vec_ =
      (Popularity.ctor (fun n => Real.log n) two_objects_renamed).obj.freq_vec_ :=
  ⟨by decide,
    (popularity_depends_on_multiset (fun n => Real.log n) two_objects two_objects_renamed
      (by decide)).1⟩

theorem has_run_ctor {F : Type} [Field F] (log : Nat → F) (obj_map : obj_info_map_type) :
    (Popularity.ctor log obj_map).obj.has_run = true ↔ 200 ≤ obj_map.length := by
  by_cases hc : obj_map.length < 200
  · rw [Popularity.ctor_too_few log obj_map hc]
    simp only [Bool.false_eq_true, false_iff, not_le]
    exact hc
  · have h1 : 200 ≤ obj_map.length := not_lt.1 hc
    rw [Popularity.ctor_fit log obj_map h1]
    simp only [true_iff]
    exact h1

/-- In a reachable state, `has_run` implies at least 200 entries in
`freq_vec_`. -/
theorem Reachable.length_of_has_run {F : Type} [Field F] {log : Nat → F} {p : Popularity F}
    (hp : Reachable log p) (hr : p.has_run = true) : 200 ≤ p.freq_vec_.length := by
  cases hp with
  | default_constructed => exact absurd hr (by simp [Popularity.default_ctor, Popularity.members])
  | constructed obj_map =>
    rw [length_ctor_freq_vec]
    exact (has_run_ctor log obj_map).1 hr

/-- C13: in every reachable state of a `Popularity` object, `has_run` is true
exactly when the object was built from a map of at least 200 objects (the
default constructor leaves it false, the constructor from a map sets it
exactly for such maps), and `has_run` implies that `freq_vec_` has at least
200 entries; hence `dump` never fails its assertion, and where `freq_vec_` is
not empty the read of `freq_vec_[0]` is in bounds. -/
theorem popularity_has_run_invariant {F : Type} [Field F] (log : Nat → F) (p : Popularity F)
    (hp : Reachable log p) :
    (p.has_run = true ↔
      ∃ obj_map : obj_info_map_type,
        200 ≤ obj_map.length ∧ p = (Popularity.ctor log obj_map).obj) ∧
    (Popularity.default_ctor : Popularity F).has_run = false ∧
    (∀ obj_map : obj_info_map_type,
      (Popularity.ctor log obj_map).obj.has_run = true ↔ 200 ≤ obj_map.length) ∧
    (p.has_run = true → 200 ≤ p.freq_vec_.length) ∧
    (∀ path_base : String, ∃ d, Popularity.dump p path_base = some d) ∧
    (p.freq_vec_.isEmpty = false →
      ∃ v, p.freq_vec_[0]? = some v ∧ p.freq_vec_.getD 0 0 = v) := by
  refine ⟨?_, rfl, has_run_ctor log, hp.length_of_has_run, ?_, ?_⟩
  · constructor
    · intro hr
      cases hp with
      | default_constructed =>
        exact absurd hr (by simp [Popularity.default_ctor, Popularity.members])
      | constructed obj_map => exact ⟨obj_map, (has_run_ctor log obj_map).1 hr, rfl⟩
    · rintro ⟨obj_map, h200, rfl⟩
      exact (has_run_ctor log obj_map).2 h200
  · intro path_base
    unfold Popularity.dump
    by_cases he : p.freq_vec_.isEmpty = true
    · have hr : p.has_run = false := by
        cases hrun : p.has_run with
        | false => rfl
        | true =>
          have hlen := hp.length_of_has_run hrun
          rw [List.isEmpty_iff] at he
          rw [he] at hlen
          simp at hlen
      simp only [he, hr, if_true, Bool.false_eq_true, if_false]
      exact ⟨_, rfl⟩
    · simp only [he, if_false]
      exact ⟨_, rfl⟩
  · intro hne
    cases hv : p.freq_vec_ with
    | nil => rw [hv] at hne; simp at hne
    | cons a t => exact ⟨a, by simp, by simp⟩

/-- Witness of `popularity_has_run_invariant`: the object built from
`busy_map`, a map of 200 objects.  It is reachable, `has_run` is set, and
`freq_vec_` has at least 200 entries; `dump` does not fail its assertion, and
the read of `freq_vec_[0]` is in bounds and yields 399. -/
theorem popularity_has_run_invariant_witness :
    Reachable (fun n => Real.log n) (Popularity.ctor (fun n => Real.log n) busy_map).obj ∧
    (Popularity.ctor (fun n => Real.log n) busy_map).obj.has_run = true ∧
    200 ≤ (Popularity.ctor (fun n => Real.log n) busy_map).obj.freq_vec_.length ∧
    (∀ path_base : String,
      ∃ d, Popularity.dump (Popularity.ctor (fun n => Real.log n) busy_map).obj path_base =
        some d) ∧
    (Popularity.ctor (fun n => Real.log n) busy_map).obj.freq_vec_.isEmpty = false ∧
    (Popularity.ctor (fun n => Real.log n) busy_map).obj.freq_vec_[0]? = some 399 := by
  obtain ⟨hiff, _, _, hlen, hdump, hread⟩ :=
    popularity_has_run_invariant (fun n => Real.log n)
      (Popularity.ctor (fun n => Real.log n) busy_map).obj (Reachable.constructed busy_map)
  have hrun : (Popularity.ctor (fun n => Real.log n) busy_map).obj.has_run = true :=
    hiff.2 ⟨busy_map, by rw [length_busy_map], rfl⟩
  have hne : (Popularity.ctor (fun n => Real.log n) busy_map).obj.freq_vec_.isEmpty = false := by
    cases hv : (Popularity.ctor (fun n => Real.log n) busy_map).obj.freq_vec_ with
    | nil =>
      have h200 := hlen hrun
      rw [hv] at h200
      simp at h200
    | cons a t => rfl
  obtain ⟨v, hv0, hvD⟩ := hread hne
  have h399 : v = 399 := by
    rw [← hvD, Popularity.ctor_freq_vec]
    exact head_busy_map
  exact ⟨Reachable.constructed busy_map, hrun, hlen hrun, hdump, hne, by rw [hv0, h399]⟩

end analysis

namespace L2Cache

theorem to_int32_range (m : Int) : -(2 ^ 31) ≤ to_int32 m ∧ to_int32 m < 2 ^ 31 := by
  unfold to_int32
  omega

theorem to_int32_congr (m : Int) : (2 ^ 32 : Int) ∣ m - to_int32 m := by
  unfold to_int32
  omega

theorem to_int32_eq_self_iff {m : Int} (h0 : 0 ≤ m) : to_int32 m = m ↔ m ≤ 2 ^ 31 - 1 := by
  unfold to_int32
  omega

/-- The world `resize_matrix` leaves from `two_rows` with `new_size = 2 ^ 62`:
both byte counts are `4 * 2 ^ 62`, which is 0 modulo `2 ^ 64`. -/
theorem resize_matrix_two_rows_huge :
    resize_matrix two_rows 4611686018427387904 = .ok
      (World.mk two_rows.params
        [Block.mk [some 5, some 6] false, Block.mk [some 1, some 0] false,
         Block.mk [] true, Block.mk [] true]
        (some 2) (some 3) 0) := by
  rfl

/-- C15 (as stated) fails where the byte count of the allocation wraps: for
`new_size = 2 ^ 62`, an `int64_t`, on the one-feature matrix `two_rows`, the
buffers are allocated with 0 cells, not for `2 ^ 62` rows, and the recorded
size, 0, equals the allocated row capacity although `new_size > 2 ^ 31 - 1`. -/
theorem resize_matrix_byte_count_wraps :
    Releasable two_rows ∧ (0 : Int) ≤ 4611686018427387904 ∧
    (4611686018427387904 : Int) ≤ 2 ^ 63 - 1 ∧
    ∃ w', resize_matrix two_rows 4611686018427387904 = .ok w' ∧
      w'.size = 0 ∧ capacity w'.heap w'.x = some 0 ∧ capacity w'.heap w'.y = some 0 ∧
      capacity w'.heap w'.y ≠ some (4611686018427387904 : Int).toNat ∧
      ¬ (w'.size = ((0 : Nat) : Int) ↔ (4611686018427387904 : Int) ≤ 2 ^ 31 - 1) := by
  refine ⟨trainingMatrix_two_rows.releasable, by decide, by decide, _,
    resize_matrix_two_rows_huge, rfl, rfl, rfl, by decide, ?_⟩
  intro h
  have h2 := h.1 rfl
  revert h2
  decide

/-- C15 (as amended): `resize_matrix` stores the 64-bit `new_size` into the
32-bit size.  On releasable buffers and for every `new_size >= 0`, the call
succeeds and the recorded size is `new_size` reduced modulo `2 ^ 32` into the
signed 32-bit range (it differs from `new_size` by a multiple of `2 ^ 32` and
lies in `[-2 ^ 31, 2 ^ 31)`).  While the byte counts
`sizeof(feature_t) * new_size * n_feature` and `sizeof(pred_t) * new_size` are
below `2 ^ 64`, `X` is allocated with `new_size * n_feature` cells and `Y`
with `new_size` cells, and the recorded size is the allocated number of rows
exactly when `new_size <= 2 ^ 31 - 1`. -/
theorem resize_matrix_size_truncated (w : World) (m : Int) (hrel : Releasable w)
    (hm0 : 0 ≤ m) :
    ∃ w', resize_matrix w m = .ok w' ∧
      w'.size = (m + 2 ^ 31) % 2 ^ 32 - 2 ^ 31 ∧
      (2 ^ 32 : Int) ∣ m - w'.size ∧ -(2 ^ 31) ≤ w'.size ∧ w'.size < 2 ^ 31 ∧
      ((sizeof_feature_t : Int) * (m * w.params.learner.n_feature) < 2 ^ 64 →
        (sizeof_pred_t : Int) * m < 2 ^ 64 →
        capacity w'.heap w'.x = some (m.toNat * w.params.learner.n_feature) ∧
        capacity w'.heap w'.y = some m.toNat ∧
        (w'.size = (m.toNat : Int) ↔ m ≤ 2 ^ 31 - 1)) := by
  obtain ⟨w', hres, _, hsize, _, hcx, hcy, _, _, _, _⟩ := resize_matrix_run w m hrel
  refine ⟨w', hres, by rw [hsize]; rfl, ?_, ?_, ?_, ?_⟩
  · rw [hsize]; exact to_int32_congr m
  · rw [hsize]; exact (to_int32_range m).1
  · rw [hsize]; exact (to_int32_range m).2
  · intro hx hy
    have hcells := cells_of_no_wrap w.params.learner.n_feature hm0 hx hy
    rw [hcells.1] at hcx
    rw [hcells.2] at hcy
    refine ⟨hcx, hcy, ?_⟩
    rw [hsize, Int.toNat_of_nonneg hm0]
    exact to_int32_eq_self_iff hm0

/-- Witness of `resize_matrix_size_truncated`: `two_rows` resized to
`2 ^ 32 + 5` rows, of which the recorded size keeps 5. -/
theorem resize_matrix_size_truncated_witness :
    Releasable two_rows ∧ (0 : Int) ≤ 4294967301 ∧
    ∃ w', resize_matrix two_rows 4294967301 = .ok w' ∧
      w'.size = 5 ∧
      capacity w'.heap w'.x =
        some ((4294967301 : Int).toNat * two_rows.params.learner.n_feature) ∧
      capacity w'.heap w'.y = some (4294967301 : Int).toNat ∧
      ¬ w'.size = ((4294967301 : Int).toNat : Int) := by
  obtain ⟨w', hres, hsize, _, _, _, hcap⟩ :=
    resize_matrix_size_truncated two_rows 4294967301 trainingMatrix_two_rows.releasable
      (by decide)
  obtain ⟨hcx, hcy, hiff⟩ := hcap (by decide) (by decide)
  refine ⟨trainingMatrix_two_rows.releasable, by decide, w', hres, ?_, hcx, hcy, ?_⟩
  · rw [hsize]; decide
  · intro h
    have := hiff.1 h
    revert this
    decide

end L2Cache
